import Mathlib

/-!
Verification of the keyspider core against its specification.

Shallow embedding of the data-acquisition plane of the keyspider
repository: the unreachable-source classifier
(`core/unreachable_detector.py`), the persistence upsert helper
(`db/queries.py`), the graph-layer reconciler and BFS crawl of the
spider engine (`core/spider_engine.py`), the path query of the graph
builder (`core/graph_builder.py`), the SSH connection pool
(`core/ssh_connector.py`), the fingerprint utility
(`core/fingerprint.py`) and the log parser (`core/log_parser.py`).
Python functions become Lean functions; database rows become records in
lists; the ORM session becomes explicit state passing.
-/

namespace Keyspider

/-! ## Unreachable-source classifier (core/unreachable_detector.py) -/

/-- Helper for `splitOnChar`: accumulate the current piece (reversed). -/
def splitOnCharAux (sep : Char) : List Char → List Char → List (List Char)
  | [], acc => [acc.reverse]
  | c :: rest, acc =>
    if c == sep then acc.reverse :: splitOnCharAux sep rest []
    else splitOnCharAux sep rest (c :: acc)

/-- Python `str.split(sep)` for a one-character separator: empty pieces
are kept, and the empty string yields one empty piece. -/
def splitOnChar (sep : Char) (cs : List Char) : List (List Char) :=
  splitOnCharAux sep cs []

/-- Helper for `splitOnDoubleColon`. -/
def splitDCAux : List Char → List Char → List (List Char)
  | [], acc => [acc.reverse]
  | ':' :: ':' :: rest, acc => acc.reverse :: splitDCAux rest []
  | c :: rest, acc => splitDCAux rest (c :: acc)

/-- Python `str.split("::")`, the IPv6 compression split. -/
def splitOnDoubleColon (cs : List Char) : List (List Char) :=
  splitDCAux cs []

/-- Model of CPython `ipaddress._parse_octet`: an IPv4 dotted-quad part is
1 to 3 ASCII digits, value at most 255, with no leading zero. -/
def parseOctet (cs : List Char) : Option Nat :=
  if cs.length = 0 || cs.length > 3 then none
  else if !(cs.all Char.isDigit) then none
  else if cs.length > 1 && cs.headD 'x' == '0' then none
  else
    let v := cs.foldl (fun a c => a * 10 + (c.toNat - 48)) 0
    if v ≤ 255 then some v else none

/-- Model of `ipaddress.IPv4Address` string parsing: exactly four octets
separated by dots. -/
def parseIPv4 (cs : List Char) : Option (Nat × Nat × Nat × Nat) :=
  match (splitOnChar '.' cs).map parseOctet with
  | [some a, some b, some c, some d] => some (a, b, c, d)
  | _ => none

/-- One 16-bit IPv6 group: 1 to 4 hex digits. -/
def parseHexGroup (cs : List Char) : Option Nat :=
  if cs.length = 0 || cs.length > 4 then none
  else if !(cs.all (fun c => c.isDigit || ('a' ≤ c && c ≤ 'f') || ('A' ≤ c && c ≤ 'F'))) then
    none
  else
    some (cs.foldl (fun a c =>
      a * 16 + (if c.isDigit then c.toNat - 48
                else if 'a' ≤ c then c.toNat - 87 else c.toNat - 55)) 0)

/-- Parse one side of a `::` split into 16-bit groups; the last piece may
be an embedded IPv4 dotted quad (two groups), as CPython allows. -/
def parseV6Side (pieces : List (List Char)) (allowV4Tail : Bool) : Option (List Nat) :=
  match pieces with
  | [] => some []
  | [p] =>
    if allowV4Tail && p.contains '.' then
      match parseIPv4 p with
      | some (a, b, c, d) => some [a * 256 + b, c * 256 + d]
      | none => none
    else
      (parseHexGroup p).map fun g => [g]
  | p :: rest =>
    match parseHexGroup p, parseV6Side rest allowV4Tail with
    | some g, some gs => some (g :: gs)
    | _, _ => none

/-- Model of `ipaddress.IPv6Address` string parsing, reduced to the list
of eight 16-bit groups; at most one `::` compression, embedded IPv4 tail
supported. -/
def parseIPv6 (cs : List Char) : Option (List Nat) :=
  match splitOnDoubleColon cs with
  | [whole] =>
    match parseV6Side (splitOnChar ':' whole) true with
    | some gs => if gs.length = 8 then some gs else none
    | none => none
  | [lo, hi] =>
    let loPieces := if lo.isEmpty then [] else splitOnChar ':' lo
    let hiPieces := if hi.isEmpty then [] else splitOnChar ':' hi
    match parseV6Side loPieces false, parseV6Side hiPieces true with
    | some gl, some gh =>
      if gl.length + gh.length ≤ 7 then
        some (gl ++ List.replicate (8 - gl.length - gh.length) 0 ++ gh)
      else none
    | _, _ => none
  | _ => none

/-- Model of `UnreachableDetector.is_private_ip`: parse the address as
`ipaddress.ip_address` does (IPv4 first, then IPv6, a `%zone` suffix
only for IPv6) and test membership in `_PRIVATE_RANGES` =
10.0.0.0/8, 172.16.0.0/12, 192.168.0.0/16, fc00::/7.  A `ValueError`
(unparsable address) yields `false`. -/
def isPrivateIp (s : String) : Bool :=
  match parseIPv4 s.toList with
  | some (a, b, _, _) =>
    a == 10 || (a == 172 && 16 ≤ b && b ≤ 31) || (a == 192 && b == 168)
  | none =>
    let addr6 :=
      match splitOnChar '%' s.toList with
      | [plain] => parseIPv6 plain
      | [addr, zone] => if zone.isEmpty then none else parseIPv6 addr
      | _ => none
    match addr6 with
    | some (g :: _) => g / 512 == 126
    | _ => false

/-- Python truthiness of an optional string: `None` and `""` are falsy.
The classifier guards read `if fingerprint:`. -/
def pyTruthy (s : Option String) : Bool :=
  match s with
  | none => false
  | some v => !(v == "")

/-- Model of `UnreachableDetector.classify_severity`.  The target server
is not inspected by the rules, so it is elided.  First match wins:
root with a fingerprint is critical, a fingerprint from a public source
is high, a fingerprint from a private source is medium, otherwise low. -/
def classifySeverity (sourceIp : String) (username : Option String)
    (fingerprint : Option String) : String :=
  let isPrivate := isPrivateIp sourceIp
  if username == some "root" && pyTruthy fingerprint then "critical"
  else if pyTruthy fingerprint && !isPrivate then "high"
  else if pyTruthy fingerprint && isPrivate then "medium"
  else "low"

/-! ## Persistence upsert helper (db/queries.py, get_or_create) -/

/-- A persisted row: a generated integer id, the key-field assignment and
the remaining (default-filled) fields. -/
structure Row (K D : Type) where
  rid : Nat
  key : K
  data : D
  deriving DecidableEq, Repr

/-- A table with its id sequence; `flush` assigns `nextId` to a new row. -/
structure Table (K D : Type) where
  rows : List (Row K D)
  nextId : Nat
  deriving DecidableEq, Repr

/-- Model of SQLAlchemy `scalar_one_or_none` over `filter_by(**kwargs)`:
`none` models the `MultipleResultsFound` error, `some none` no row,
`some (some r)` the unique row. -/
def lookupOne [DecidableEq K] (t : Table K D) (k : K) : Option (Option (Row K D)) :=
  match t.rows.filter (fun r => decide (r.key = k)) with
  | [] => some none
  | [r] => some (some r)
  | _ => none

/-- Model of `get_or_create(session, model, defaults, **kwargs)`: return
the existing row with `created = false`, else insert a new row built from
the key fields plus the defaults, flush it (assigning its id) and return
it with `created = true`.  `none` models a propagated query error. -/
def getOrCreate [DecidableEq K] (t : Table K D) (k : K) (defaults : D) :
    Option (Row K D × Bool × Table K D) :=
  match lookupOne t k with
  | none => none
  | some (some r) => some (r, false, t)
  | some none =>
    let r : Row K D := { rid := t.nextId, key := k, data := defaults }
    some (r, true, { rows := t.rows ++ [r], nextId := t.nextId + 1 })

/-! ## Graph-layer reconciler (core/spider_engine.py, _cross_reference_layers) -/

/-- A `KeyLocation` row, restricted to the fields the reconciler touches.
`graph_layer` is the column the core and its tests use on this table. -/
structure KeyLoc where
  ssh_key_id : Nat
  server_id : Nat
  file_path : String
  file_type : String
  graph_layer : String
  deriving DecidableEq, Repr

/-- An `AccessEvent` row, restricted to the fields the reconciler reads. -/
structure AccEvent where
  target_server_id : Nat
  ssh_key_id : Option Nat
  event_type : String
  deriving DecidableEq, Repr

/-- An `AccessPath` row, restricted to the fields the reconciler and the
path query touch. -/
structure APath where
  source_server_id : Option Nat
  target_server_id : Nat
  ssh_key_id : Option Nat
  username : Option String
  is_active : Bool
  is_authorized : Bool
  is_used : Bool
  deriving DecidableEq, Repr

/-- The relevant database state for one reconciliation. -/
structure GraphDb where
  locations : List KeyLoc
  events : List AccEvent
  paths : List APath
  deriving DecidableEq, Repr

/-- The set `A`: ssh_key_ids having a `KeyLocation` on the server with
`file_type = authorized_keys` (first query of `_cross_reference_layers`). -/
def authorizedKeyIds (db : GraphDb) (sid : Nat) : List Nat :=
  (db.locations.filter
    (fun l => l.server_id == sid && l.file_type == "authorized_keys")).map
    (fun l => l.ssh_key_id)

/-- The set `U`: ssh_key_ids of accepted `AccessEvent`s targeting the
server, null key ids excluded (second query of `_cross_reference_layers`). -/
def usedKeyIds (db : GraphDb) (sid : Nat) : List Nat :=
  db.events.filterMap
    (fun e =>
      if e.target_server_id == sid && e.event_type == "accepted" then e.ssh_key_id
      else none)

/-- Per-location update: `authorized_keys` locations on the server whose
key is both authorized and used are promoted to `graph_layer = "both"`. -/
def reconcileLoc (sid : Nat) (A U : List Nat) (l : KeyLoc) : KeyLoc :=
  if l.server_id == sid && l.file_type == "authorized_keys"
      && A.contains l.ssh_key_id && U.contains l.ssh_key_id then
    { l with graph_layer := "both" }
  else l

/-- Per-path update: paths targeting the server whose `ssh_key_id` is
non-null get `is_authorized := key ∈ A` and `is_used := key ∈ U`;
the query's `ssh_key_id.isnot(None)` filter leaves null-key paths
untouched. -/
def reconcilePath (sid : Nat) (A U : List Nat) (p : APath) : APath :=
  match p.ssh_key_id with
  | none => p
  | some k =>
    if p.target_server_id == sid then
      { p with is_authorized := A.contains k, is_used := U.contains k }
    else p

/-- Model of `SpiderEngine._cross_reference_layers` for one server. -/
def crossReferenceLayers (db : GraphDb) (sid : Nat) : GraphDb :=
  let A := authorizedKeyIds db sid
  let U := usedKeyIds db sid
  { db with
    locations := db.locations.map (reconcileLoc sid A U)
    paths := db.paths.map (reconcilePath sid A U) }

/-! ## Spider BFS crawl (core/spider_engine.py, crawl) -/

/-- The crawl bookkeeping of `SpiderProgress` plus the record of which
frontier entries reached `_process_server`. -/
structure CrawlState where
  queue : List (String × Nat × Nat)
  visited : List String
  processed : List (String × Nat × Nat)
  deriving DecidableEq, Repr

/-- Decimal digits of a number, by fuel (so that it reduces in the
kernel); `natToStr (n + 1) n` renders `n` as Python's `f"(n)"` does. -/
def natDigits : Nat → Nat → List Char
  | 0, _ => []
  | fuel + 1, n =>
    if n < 10 then [Char.ofNat (48 + n)]
    else natDigits fuel (n / 10) ++ [Char.ofNat (48 + n % 10)]

/-- Decimal rendering of a number. -/
def natToStr (n : Nat) : String :=
  String.mk (natDigits (n + 1) n)

/-- The `"hostname:port"` key of the visited set. -/
def serverKey (h : String) (p : Nat) : String :=
  h ++ ":" ++ natToStr p

/-- One iteration of the crawl loop: pop the frontier head; skip it when
already visited or deeper than `max_depth`; otherwise mark it visited and
process it.  `children` stands for whatever `_process_server` appends to
the frontier for that entry (the chain-following enqueues). -/
def crawlStep (maxDepth : Nat)
    (children : String → Nat → Nat → List (String × Nat × Nat))
    (s : CrawlState) : CrawlState :=
  match s.queue with
  | [] => s
  | (h, p, d) :: rest =>
    if serverKey h p ∈ s.visited then { s with queue := rest }
    else if d > maxDepth then { s with queue := rest }
    else
      { queue := rest ++ children h p d
        visited := s.visited ++ [serverKey h p]
        processed := s.processed ++ [(h, p, d)] }

/-- `n` iterations of the crawl loop. -/
def crawlRun (maxDepth : Nat)
    (children : String → Nat → Nat → List (String × Nat × Nat)) :
    Nat → CrawlState → CrawlState
  | 0, s => s
  | n + 1, s => crawlRun maxDepth children n (crawlStep maxDepth children s)

/-- The state at the start of `crawl(seed_hostname, seed_port)`. -/
def crawlInit (seed : String) (port : Nat) : CrawlState :=
  { queue := [(seed, port, 0)], visited := [], processed := [] }

/-! ## Chain following (core/spider_engine.py, _process_source_ip) -/

/-- An `UnreachableSource` row, restricted to the fields the spider's
chain-following step writes. -/
structure URow where
  source_ip : String
  reverse_dns : Option String
  fingerprint : Option String
  target_server_id : Nat
  severity : String
  deriving DecidableEq, Repr

/-- Model of the unreachable branch of `_process_source_ip`: classify the
severity — the call passes neither username nor fingerprint — and upsert
an `UnreachableSource` keyed by `(source_ip, fingerprint=None, target)`,
with the severity and reverse DNS applied only on insert. -/
def processSourceIpUnreachable (db : List URow) (sourceIp : String)
    (reverseDns : Option String) (targetId : Nat) : URow × Bool × List URow :=
  let severity := classifySeverity sourceIp none none
  match db.find? (fun r =>
      r.source_ip == sourceIp && r.fingerprint == none
        && r.target_server_id == targetId) with
  | some r => (r, false, db)
  | none =>
    let r : URow :=
      { source_ip := sourceIp, reverse_dns := reverseDns, fingerprint := none
        target_server_id := targetId, severity := severity }
    (r, true, db ++ [r])

/-! ## Path query (core/graph_builder.py, find_paths) -/

/-- The adjacency list built by `find_paths`: for each active
`AccessPath` with a non-null source, an edge source → target. -/
def buildAdjacency (paths : List APath) (n : Nat) : List Nat :=
  paths.filterMap
    (fun p =>
      if p.is_active && p.source_server_id == some n then some p.target_server_id
      else none)

/-- The BFS loop of `find_paths`, with explicit fuel for the while loop.
Stop when 100 paths are found or the queue empties; a popped path ending
at the destination is recorded; paths longer than 10 hops are not
extended; extensions avoid nodes already on the path. -/
def findPathsAux (adj : Nat → List Nat) (dst : Nat) :
    Nat → List (List Nat) → List (List Nat) → List (List Nat)
  | 0, _, found => found
  | _ + 1, [], found => found
  | fuel + 1, path :: rest, found =>
    if found.length ≥ 100 then found
    else
      match path.getLast? with
      | none => findPathsAux adj dst fuel rest found
      | some cur =>
        if cur = dst then findPathsAux adj dst fuel rest (found ++ [path])
        else if path.length > 10 then findPathsAux adj dst fuel rest found
        else
          findPathsAux adj dst fuel
            (rest ++ ((adj cur).filter (fun n => !(path.contains n))).map
              (fun n => path ++ [n]))
            found

/-- Model of `GraphBuilder.find_paths` restricted to the returned path
lists (the subgraph assembly around them reads, never writes). -/
def findPaths (adj : Nat → List Nat) (src dst : Nat) (fuel : Nat) : List (List Nat) :=
  findPathsAux adj dst fuel [[src]] []

/-! ## SSH connection pool (core/ssh_connector.py) -/

/-- An `SSHConnectionWrapper`: unique id, target, in-use flag.  The
underlying session object carries no pool logic and is elided. -/
structure PoolWrapper where
  wid : Nat
  host : String
  port : Nat
  inUse : Bool
  deriving DecidableEq, Repr

/-- The `"host:port"` key of the `_pools` map. -/
def poolKey (w : PoolWrapper) : String :=
  serverKey w.host w.port

/-- The pool state: the `_pools` map flattened in insertion order (per-key
sublists keep their order) and the semaphore's available-permit count.
`asyncio.Semaphore` is unbounded above, so `avail` can exceed the initial
`max_connections`. -/
structure PoolState where
  pools : List PoolWrapper
  avail : Nat
  deriving DecidableEq, Repr

/-- A pool call together with the outcome of its network I/O, which the
pool logic only observes: whether the candidate's health check passes and
whether opening a fresh session succeeds, plus the fresh wrapper's id. -/
inductive PoolCmd where
  | get (host : String) (port : Nat) (healthOk : Bool) (connectOk : Bool) (newId : Nat)
  | release (wid : Nat)
  | close (wid : Nat)
  | closeAll
  deriving DecidableEq, Repr

/-- Mark the wrapper with the given id in use, as the candidate scan does. -/
def markInUse (pools : List PoolWrapper) (wid : Nat) : List PoolWrapper :=
  pools.map (fun w => if w.wid == wid then { w with inUse := true } else w)

/-- Set the first wrapper with the given id back to idle
(`release_connection`'s scan); `none` when no wrapper matches. -/
def releaseFirst (pools : List PoolWrapper) (wid : Nat) : Option (List PoolWrapper) :=
  match pools with
  | [] => none
  | w :: rest =>
    if w.wid == wid then some ({ w with inUse := false } :: rest)
    else (releaseFirst rest wid).map (fun ps => w :: ps)

/-- Remove the first wrapper with the given id (`close_connection`'s
scan); `none` when no wrapper matches. -/
def removeFirst (pools : List PoolWrapper) (wid : Nat) : Option (List PoolWrapper) :=
  match pools with
  | [] => none
  | w :: rest =>
    if w.wid == wid then some rest
    else (removeFirst rest wid).map (fun ps => w :: ps)

/-- One pool call run to completion.  `get_connection`: acquire a permit
(a call that would block never completes, leaving the state unchanged),
pick the first idle wrapper for the key; on a healthy candidate return
it, on a dead one drop it and open a fresh session; with no candidate,
enforce the per-server cap (releasing the permit on the error) or open a
fresh session; a failed open propagates `ConnectionError` without
releasing the permit.  `release_connection` and `close_connection`
always release one permit, even for an unknown id. `close_all` clears
the map and releases nothing. -/
def poolStep (perLimit : Nat) (s : PoolState) (c : PoolCmd) : PoolState :=
  match c with
  | .get host port healthOk connectOk newId =>
    if s.avail = 0 then s
    else
      let key := serverKey host port
      match s.pools.find? (fun w => poolKey w == key && !w.inUse) with
      | some w =>
        if healthOk then { pools := markInUse s.pools w.wid, avail := s.avail - 1 }
        else
          match removeFirst (markInUse s.pools w.wid) w.wid with
          | some dropped =>
            if connectOk then
              { pools := dropped ++ [⟨newId, host, port, true⟩], avail := s.avail - 1 }
            else { pools := dropped, avail := s.avail - 1 }
          | none => s
      | none =>
        if (s.pools.filter (fun w => poolKey w == key)).length ≥ perLimit then s
        else if connectOk then
          { pools := s.pools ++ [⟨newId, host, port, true⟩], avail := s.avail - 1 }
        else { pools := s.pools, avail := s.avail - 1 }
  | .release wid =>
    match releaseFirst s.pools wid with
    | some ps => { pools := ps, avail := s.avail + 1 }
    | none => { s with avail := s.avail + 1 }
  | .close wid =>
    match removeFirst s.pools wid with
    | some ps => { pools := ps, avail := s.avail + 1 }
    | none => { s with avail := s.avail + 1 }
  | .closeAll => { s with pools := [] }

/-- A sequence of completed pool calls. -/
def poolRun (perLimit : Nat) (s : PoolState) : List PoolCmd → PoolState
  | [] => s
  | c :: cs => poolRun perLimit (poolStep perLimit s c) cs

/-- The pool as constructed: empty map, `max_connections` permits. -/
def poolInit (maxConnections : Nat) : PoolState :=
  { pools := [], avail := maxConnections }

/-- Number of pool entries currently borrowed. -/
def inUseCount (pools : List PoolWrapper) : Nat :=
  (pools.filter (fun w => w.inUse)).length

/-- Number of pool entries for one `"host:port"` key. -/
def keyCount (pools : List PoolWrapper) (key : String) : Nat :=
  (pools.filter (fun w => poolKey w == key)).length

/-- Calls whose handle arguments are legitimate: a `get` brings a fresh
id and each `release`/`close` names a currently borrowed handle.  This
is the discipline of the pool's own callers; `release_connection`
tolerates violations but the semaphore accounting then degrades. -/
inductive WFCalls (perLimit : Nat) : PoolState → List PoolCmd → Prop
  | nil (s : PoolState) : WFCalls perLimit s []
  | get (s : PoolState) (h : String) (p : Nat) (ho co : Bool) (newId : Nat)
      (cs : List PoolCmd)
      (fresh : ∀ w ∈ s.pools, w.wid ≠ newId)
      (rest : WFCalls perLimit (poolStep perLimit s (.get h p ho co newId)) cs) :
      WFCalls perLimit s (.get h p ho co newId :: cs)
  | release (s : PoolState) (wid : Nat) (cs : List PoolCmd)
      (borrowed : ∃ w ∈ s.pools, w.wid = wid ∧ w.inUse = true)
      (rest : WFCalls perLimit (poolStep perLimit s (.release wid)) cs) :
      WFCalls perLimit s (.release wid :: cs)
  | close (s : PoolState) (wid : Nat) (cs : List PoolCmd)
      (borrowed : ∃ w ∈ s.pools, w.wid = wid ∧ w.inUse = true)
      (rest : WFCalls perLimit (poolStep perLimit s (.close wid)) cs) :
      WFCalls perLimit s (.close wid :: cs)
  | closeAll (s : PoolState) (cs : List PoolCmd)
      (rest : WFCalls perLimit (poolStep perLimit s .closeAll) cs) :
      WFCalls perLimit s (.closeAll :: cs)

/-! ## Python string helpers shared by the fingerprint utility and parsers -/

/-- Python `str.isspace` for the ASCII whitespace that `str.split` and
`str.strip` treat as separators. -/
def pyIsSpace (c : Char) : Bool :=
  c == ' ' || c == '\t' || c == '\n' || c == '\r'
    || c == Char.ofNat 11 || c == Char.ofNat 12

/-- Python `str.strip()`. -/
def pyStrip (s : String) : String :=
  String.mk (((s.toList.dropWhile pyIsSpace).reverse.dropWhile pyIsSpace).reverse)

/-- Helper for `pySplitWs`: accumulate the current token (reversed). -/
def splitWsAux : List Char → List Char → List (List Char)
  | [], acc => if acc.isEmpty then [] else [acc.reverse]
  | c :: rest, acc =>
    if pyIsSpace c then
      if acc.isEmpty then splitWsAux rest [] else acc.reverse :: splitWsAux rest []
    else splitWsAux rest (c :: acc)

/-- Python `str.split()` with no argument: split on whitespace runs,
no empty tokens. -/
def pySplitWs (s : String) : List String :=
  (splitWsAux s.toList []).map String.mk

/-! ## Fingerprint utility (core/fingerprint.py) -/

/-- A standard-base64 alphabet character, `[A-Za-z0-9+/]`. -/
def isB64Char (c : Char) : Bool :=
  c.isAlphanum || c == '+' || c == '/'

/-- The sextet value of a standard-base64 alphabet character. -/
def sextetOf (c : Char) : Nat :=
  if 'A' ≤ c && c ≤ 'Z' then c.toNat - 65
  else if 'a' ≤ c && c ≤ 'z' then c.toNat - 71
  else if '0' ≤ c && c ≤ '9' then c.toNat + 4
  else if c == '+' then 62
  else 63

/-- The standard-base64 alphabet, in sextet order. -/
def b64Alphabet : List Char :=
  "ABCDEFGHIJKLMNOPQRSTUVWXYZabcdefghijklmnopqrstuvwxyz0123456789+/".toList

/-- The standard-base64 character of a sextet value. -/
def b64CharOf (n : Nat) : Char :=
  b64Alphabet.getD n 'A'

/-- `base64.b64encode` over bytes, producing characters with `=` padding. -/
def b64Encode : List Nat → List Char
  | [] => []
  | [a] => [b64CharOf (a / 4), b64CharOf (a % 4 * 16), '=', '=']
  | [a, b] =>
    [b64CharOf (a / 4), b64CharOf (a % 4 * 16 + b / 16), b64CharOf (b % 16 * 4), '=']
  | a :: b :: c :: rest =>
    b64CharOf (a / 4) :: b64CharOf (a % 4 * 16 + b / 16)
      :: b64CharOf (b % 16 * 4 + c / 64) :: b64CharOf (c % 64)
      :: b64Encode rest

/-- The quad state machine of `binascii.a2b_base64` (non-strict):
`q` is the position within the current four-character group, `left` the
pending bits, `pads` the running pad count.  A `=` at positions 2 or 3
counts toward completing the group and ends the parse when it does; a
data character resets the pad count; input ending inside a group is the
`binascii.Error` both wrappers surface (`none`). -/
def a2bLoop : List Char → Nat → Nat → Nat → List Nat → Option (List Nat)
  | [], q, _, _, out => if q = 0 then some out else none
  | c :: rest, q, left, pads, out =>
    if c == '=' then
      if 2 ≤ q then
        if 4 ≤ q + (pads + 1) then some out
        else a2bLoop rest q left (pads + 1) out
      else a2bLoop rest q left pads out
    else
      let v := sextetOf c
      match q with
      | 0 => a2bLoop rest 1 v 0 out
      | 1 => a2bLoop rest 2 (v % 16) 0 (out ++ [left * 4 + v / 16])
      | 2 => a2bLoop rest 3 (v % 4) 0 (out ++ [left * 16 + v / 4])
      | _ => a2bLoop rest 0 0 0 (out ++ [left * 64 + v])

/-- Model of `base64.b64decode` (default, non-strict): characters outside
the alphabet and `=` are discarded, then the quad machine decodes. -/
def b64Decode (s : String) : Option (List Nat) :=
  a2bLoop (s.toList.filter (fun c => isB64Char c || c == '=')) 0 0 0 []

/-- Python `bytes.rstrip(b"=")`. -/
def rstripEq (cs : List Char) : List Char :=
  (cs.reverse.dropWhile (fun c => c == '=')).reverse

/-- The key-type tags `_extract_key_data` recognises as the first token
of an `authorized_keys` line. -/
def keyTypeTags : List String :=
  ["ssh-rsa", "ssh-ed25519", "ssh-dss",
   "ecdsa-sha2-nistp256", "ecdsa-sha2-nistp384", "ecdsa-sha2-nistp521"]

/-- Model of `_extract_key_data`: strip; an `authorized_keys` line
(known tag then base64) yields its second token; a PEM block yields its
non-dash lines joined; a pure-base64 string yields itself; anything else
`none`. -/
def extractKeyData (s : String) : Option String :=
  let t := pyStrip s
  let parts := pySplitWs t
  if 2 ≤ parts.length && keyTypeTags.contains (parts.headD "") then
    parts.get? 1
  else if "-----".toList.isPrefixOf t.toList then
    some (String.mk (((splitOnChar '\n' t.toList).filter
      (fun l => !("-----".toList.isPrefixOf l))).flatten))
  else if t.toList.length ≠ 0
      && t.toList.all (fun c => c.isAlphanum || c == '+' || c == '/' || c == '=') then
    some t
  else none

/-- 2^32, the word modulus of both hash functions. -/
def M32 : Nat := 4294967296

/-- Right rotation of a 32-bit word. -/
def rotr (n x : Nat) : Nat :=
  x / 2 ^ n + x % 2 ^ n * 2 ^ (32 - n)

/-- Left rotation of a 32-bit word. -/
def rotl (n x : Nat) : Nat :=
  x % 2 ^ (32 - n) * 2 ^ n + x / 2 ^ (32 - n)

/-- Bitwise exclusive-or, one bit per fuel step (structural, so that it
reduces in the kernel; 32 steps cover 32-bit words). -/
def xorAux : Nat → Nat → Nat → Nat
  | 0, _, _ => 0
  | fuel + 1, a, b =>
    (if a % 2 == b % 2 then 0 else 1) + 2 * xorAux fuel (a / 2) (b / 2)

/-- Bitwise and, one bit per fuel step. -/
def landAux : Nat → Nat → Nat → Nat
  | 0, _, _ => 0
  | fuel + 1, a, b =>
    (if a % 2 == 1 && b % 2 == 1 then 1 else 0) + 2 * landAux fuel (a / 2) (b / 2)

/-- Bitwise or, one bit per fuel step. -/
def lorAux : Nat → Nat → Nat → Nat
  | 0, _, _ => 0
  | fuel + 1, a, b =>
    (if a % 2 == 1 || b % 2 == 1 then 1 else 0) + 2 * lorAux fuel (a / 2) (b / 2)

/-- 32-bit exclusive-or. -/
def xor32 (a b : Nat) : Nat := xorAux 32 a b

/-- 32-bit and. -/
def land32 (a b : Nat) : Nat := landAux 32 a b

/-- 32-bit or. -/
def lor32 (a b : Nat) : Nat := lorAux 32 a b

/-- Bitwise complement of a 32-bit word. -/
def not32 (x : Nat) : Nat :=
  xor32 x 4294967295

/-- `k` bytes of `n`, big-endian. -/
def toBytesBE (k n : Nat) : List Nat :=
  (List.range k).map (fun i => n / 2 ^ (8 * (k - 1 - i)) % 256)

/-- `k` bytes of `n`, little-endian. -/
def toBytesLE (k n : Nat) : List Nat :=
  (List.range k).map (fun i => n / 2 ^ (8 * i) % 256)

/-- Split a byte string into 64-byte blocks (fuel bounds the recursion;
with fuel ≥ the list length the fuel never runs out, since each step
strips at least one byte). -/
def chunks64Aux : Nat → List Nat → List (List Nat)
  | _, [] => []
  | 0, _ :: _ => []
  | fuel + 1, x :: xs => (x :: xs.take 63) :: chunks64Aux fuel (xs.drop 63)

/-- Split a byte string into 64-byte blocks. -/
def chunks64 (l : List Nat) : List (List Nat) := chunks64Aux l.length l

/-- Merkle–Damgård padding: `0x80`, zeros to 56 mod 64, then the 8-byte
bit length (big-endian for SHA-256, little-endian for MD5). -/
def hashPad (lengthBytes : Nat → List Nat) (msg : List Nat) : List Nat :=
  msg ++ 128 :: List.replicate ((119 - msg.length % 64) % 64) 0
    ++ lengthBytes (msg.length * 8)

/-- 32-bit words of a block, big-endian. -/
def bytesToWordsBE : List Nat → List Nat
  | a :: b :: c :: d :: rest =>
    (a * 16777216 + b * 65536 + c * 256 + d) :: bytesToWordsBE rest
  | _ => []

/-- 32-bit words of a block, little-endian. -/
def bytesToWordsLE : List Nat → List Nat
  | a :: b :: c :: d :: rest =>
    (a + b * 256 + c * 65536 + d * 16777216) :: bytesToWordsLE rest
  | _ => []

/-- SHA-256 round constants. -/
def sha256K : List Nat :=
  [1116352408, 1899447441, 3049323471, 3921009573, 961987163, 1508970993, 2453635748, 2870763221,
   3624381080, 310598401, 607225278, 1426881987, 1925078388, 2162078206, 2614888103, 3248222580,
   3835390401, 4022224774, 264347078, 604807628, 770255983, 1249150122, 1555081692, 1996064986,
   2554220882, 2821834349, 2952996808, 3210313671, 3336571891, 3584528711, 113926993, 338241895,
   666307205, 773529912, 1294757372, 1396182291, 1695183700, 1986661051, 2177026350, 2456956037,
   2730485921, 2820302411, 3259730800, 3345764771, 3516065817, 3600352804, 4094571909, 275423344,
   430227734, 506948616, 659060556, 883997877, 958139571, 1322822218, 1537002063, 1747873779,
   1955562222, 2024104815, 2227730452, 2361852424, 2428436474, 2756734187, 3204031479, 3329325298]

/-- SHA-256 initial hash state. -/
def sha256H0 : List Nat :=
  [1779033703, 3144134277, 1013904242, 2773480762,
   1359893119, 2600822924, 528734635, 1541459225]

/-- SHA-256 message-schedule extension of the 16 block words to 64. -/
def sha256Extend (w : List Nat) : List Nat :=
  (List.range 48).foldl
    (fun acc _ =>
      let n := acc.length
      let s1 := xor32 (xor32 (rotr 17 (acc.getD (n - 2) 0)) (rotr 19 (acc.getD (n - 2) 0)))
        (acc.getD (n - 2) 0 / 2 ^ 10)
      let s0 := xor32 (xor32 (rotr 7 (acc.getD (n - 15) 0)) (rotr 18 (acc.getD (n - 15) 0)))
        (acc.getD (n - 15) 0 / 2 ^ 3)
      acc ++ [(s1 + acc.getD (n - 7) 0 + s0 + acc.getD (n - 16) 0) % M32])
    w

/-- SHA-256 compression of one 64-byte block into the running state. -/
def sha256Chunk (hs : List Nat) (chunk : List Nat) : List Nat :=
  let w := sha256Extend (bytesToWordsBE chunk)
  let final := (sha256K.zip w).foldl
    (fun st kw =>
      match st with
      | [a, b, c, d, e, f, g, hh] =>
        let t1 := (hh + xor32 (xor32 (rotr 6 e) (rotr 11 e)) (rotr 25 e)
          + xor32 (land32 e f) (land32 (not32 e) g) + kw.1 + kw.2) % M32
        let t2 := (xor32 (xor32 (rotr 2 a) (rotr 13 a)) (rotr 22 a)
          + xor32 (xor32 (land32 a b) (land32 a c)) (land32 b c)) % M32
        [(t1 + t2) % M32, a, b, c, (d + t1) % M32, e, f, g]
      | st => st)
    hs
  (hs.zip final).map (fun p => (p.1 + p.2) % M32)

/-- `hashlib.sha256(msg).digest()` over byte lists. -/
def sha256 (msg : List Nat) : List Nat :=
  (((chunks64 (hashPad (toBytesBE 8) msg)).foldl sha256Chunk sha256H0).map
    (toBytesBE 4)).flatten

/-- MD5 round constants `floor(2^32 * abs(sin(i + 1)))`. -/
def md5K : List Nat :=
  [3614090360, 3905402710, 606105819, 3250441966, 4118548399, 1200080426, 2821735955, 4249261313,
   1770035416, 2336552879, 4294925233, 2304563134, 1804603682, 4254626195, 2792965006, 1236535329,
   4129170786, 3225465664, 643717713, 3921069994, 3593408605, 38016083, 3634488961, 3889429448,
   568446438, 3275163606, 4107603335, 1163531501, 2850285829, 4243563512, 1735328473, 2368359562,
   4294588738, 2272392833, 1839030562, 4259657740, 2763975236, 1272893353, 4139469664, 3200236656,
   681279174, 3936430074, 3572445317, 76029189, 3654602809, 3873151461, 530742520, 3299628645,
   4096336452, 1126891415, 2878612391, 4237533241, 1700485571, 2399980690, 4293915773, 2240044497,
   1873313359, 4264355552, 2734768916, 1309151649, 4149444226, 3174756917, 718787259, 3951481745]

/-- MD5 per-round left-rotation amounts. -/
def md5Shifts : List Nat :=
  [7, 12, 17, 22, 7, 12, 17, 22, 7, 12, 17, 22, 7, 12, 17, 22,
   5, 9, 14, 20, 5, 9, 14, 20, 5, 9, 14, 20, 5, 9, 14, 20,
   4, 11, 16, 23, 4, 11, 16, 23, 4, 11, 16, 23, 4, 11, 16, 23,
   6, 10, 15, 21, 6, 10, 15, 21, 6, 10, 15, 21, 6, 10, 15, 21]

/-- MD5 initial state. -/
def md5Init : List Nat :=
  [1732584193, 4023233417, 2562383102, 271733878]

/-- One MD5 round on the running `[a, b, c, d]` state, with the block
words `m`. -/
def md5Round (m : List Nat) (s : List Nat) (i : Nat) : List Nat :=
  match s with
  | [a, b, c, d] =>
    let fg :=
      if i < 16 then (lor32 (land32 b c) (land32 (not32 b) d), i)
      else if i < 32 then (lor32 (land32 d b) (land32 (not32 d) c), (5 * i + 1) % 16)
      else if i < 48 then (xor32 (xor32 b c) d, (3 * i + 5) % 16)
      else (xor32 c (lor32 b (not32 d)), 7 * i % 16)
    let tmp := (fg.1 + a + md5K.getD i 0 + m.getD fg.2 0) % M32
    [d, (b + rotl (md5Shifts.getD i 0) tmp) % M32, b, c]
  | s => s

/-- MD5 compression of one 64-byte block into the running state. -/
def md5Chunk (st : List Nat) (chunk : List Nat) : List Nat :=
  let final := (List.range 64).foldl (md5Round (bytesToWordsLE chunk)) st
  (st.zip final).map (fun p => (p.1 + p.2) % M32)

/-- `hashlib.md5(msg).digest()` over byte lists. -/
def md5 (msg : List Nat) : List Nat :=
  (((chunks64 (hashPad (toBytesLE 8) msg)).foldl md5Chunk md5Init).map
    (toBytesLE 4)).flatten

/-- A lowercase hex digit. -/
def hexChar (n : Nat) : Char :=
  if n < 10 then Char.ofNat (48 + n) else Char.ofNat (87 + n)

/-- Two lowercase hex digits of a byte, as in `hexdigest()`. -/
def byteToHexChars (b : Nat) : List Char :=
  [hexChar (b / 16), hexChar (b % 16)]

/-- Python `":".join(pieces)`. -/
def colonJoin : List (List Char) → List Char
  | [] => []
  | [x] => x
  | x :: xs => x ++ ':' :: colonJoin xs

/-- Model of `calculate_sha256_fingerprint`: extract the base64 payload,
decode it, hash it, and render `"SHA256:" + base64(digest)` with the
`=` padding stripped; any failure (or an empty payload, which is falsy)
gives `none`. -/
def calculateSha256Fingerprint (s : String) : Option String :=
  match extractKeyData s with
  | none => none
  | some keyB64 =>
    if keyB64 = "" then none
    else
      match b64Decode keyB64 with
      | none => none
      | some keyBytes =>
        some ("SHA256:" ++ String.mk (rstripEq (b64Encode (sha256 keyBytes))))

/-- Model of `calculate_md5_fingerprint`: same pipeline, rendering
`"MD5:" + colon-joined hex byte pairs of the MD5 digest`. -/
def calculateMd5Fingerprint (s : String) : Option String :=
  match extractKeyData s with
  | none => none
  | some keyB64 =>
    if keyB64 = "" then none
    else
      match b64Decode keyB64 with
      | none => none
      | some keyBytes =>
        some ("MD5:" ++ String.mk (colonJoin ((md5 keyBytes).map byteToHexChars)))

/-! ## Syslog timestamp parsing (core/log_parser.py, _parse_syslog_timestamp) -/

/-- A timezone-aware `datetime` pinned to UTC, as the parser produces. -/
structure PyDateTime where
  year : Nat
  month : Nat
  day : Nat
  hour : Nat
  minute : Nat
  second : Nat
  deriving DecidableEq, Repr

/-- Days from 1970-01-01 of a proleptic-Gregorian civil date
(Hinnant's `days_from_civil`). -/
def daysFromCivil (y : Int) (m d : Nat) : Int :=
  let y2 : Int := y - (if m ≤ 2 then 1 else 0)
  let era : Int := Int.fdiv y2 400
  let yoe : Int := y2 - era * 400
  let mp : Int := if 2 < m then (m : Int) - 3 else (m : Int) + 9
  let doy : Int := Int.fdiv (153 * mp + 2) 5 + (d : Int) - 1
  let doe : Int := yoe * 365 + Int.fdiv yoe 4 - Int.fdiv yoe 100 + doy
  era * 146097 + doe - 719468

/-- Seconds from the epoch of a UTC datetime. -/
def toSecs (t : PyDateTime) : Int :=
  daysFromCivil t.year t.month t.day * 86400
    + t.hour * 3600 + t.minute * 60 + t.second

/-- `(a - b).days` of two UTC datetimes: `timedelta.days` floors. -/
def timedeltaDays (a b : PyDateTime) : Int :=
  Int.fdiv (toSecs a - toSecs b) 86400

/-- The C-locale month abbreviations `%b` accepts, case-insensitively. -/
def monthOfAbbr (s : String) : Option Nat :=
  let l := s.toList.map Char.toLower
  if l = "jan".toList then some 1
  else if l = "feb".toList then some 2
  else if l = "mar".toList then some 3
  else if l = "apr".toList then some 4
  else if l = "may".toList then some 5
  else if l = "jun".toList then some 6
  else if l = "jul".toList then some 7
  else if l = "aug".toList then some 8
  else if l = "sep".toList then some 9
  else if l = "oct".toList then some 10
  else if l = "nov".toList then some 11
  else if l = "dec".toList then some 12
  else none

/-- Gregorian leap year. -/
def isLeapYear (y : Nat) : Bool :=
  y % 4 == 0 && (y % 100 != 0 || y % 400 == 0)

/-- Days in a month. -/
def daysInMonth (y m : Nat) : Nat :=
  if m == 2 then (if isLeapYear y then 29 else 28)
  else if m == 4 || m == 6 || m == 9 || m == 11 then 30
  else 31

/-- A run of ASCII digits as a number. -/
def parseDigits (s : String) : Option Nat :=
  if s.length ≠ 0 && s.toList.all Char.isDigit then
    some (s.toList.foldl (fun a c => a * 10 + (c.toNat - 48)) 0)
  else none

/-- A 1-or-2-digit field bounded by `hi`, as the `%d`/`%H`/`%M`/`%S`
patterns and the `datetime` constructor jointly admit. -/
def parseField2 (s : String) (lo hi : Nat) : Option Nat :=
  match parseDigits s with
  | some v => if s.length ≤ 2 && lo ≤ v && v ≤ hi then some v else none
  | none => none

/-- Model of `datetime.strptime(f"(year) (ts)", "%Y %b %d %H:%M:%S")`
applied after the parser's whitespace normalisation: the year must
render as the four digits `%Y` consumes, the timestamp must be exactly
month-abbreviation, day and `H:M:S` tokens, and the `datetime`
constructor's range checks apply (day within the month, seconds below
60).  `none` models the `ValueError` path. -/
def strptimeTS (year : Nat) (ts : String) : Option PyDateTime :=
  if year < 1000 || year > 9999 then none
  else
    match pySplitWs ts with
    | [mTok, dTok, tTok] =>
      match monthOfAbbr mTok with
      | none => none
      | some m =>
        match parseField2 dTok 1 31, (splitOnChar ':' tTok.toList).map String.mk with
        | some d, [hTok, miTok, sTok] =>
          match parseField2 hTok 0 23, parseField2 miTok 0 59, parseField2 sTok 0 59 with
          | some h, some mi, some s =>
            if d ≤ daysInMonth year m then
              some { year := year, month := m, day := d,
                     hour := h, minute := mi, second := s }
            else none
          | _, _, _ => none
        | _, _ => none
    | _ => none

/-- The year a syslog timestamp resolves to: the reference time's year,
else the current year. -/
def resolveYear (now : PyDateTime) (reference : Option PyDateTime) : Nat :=
  match reference with
  | some r => r.year
  | none => now.year

/-- Model of `_parse_syslog_timestamp(ts_str, reference_time,
last_timestamp)`.  `now` stands for `datetime.now(timezone.utc)`.  The
year resolves to the reference year, else the current year; a parse
failure returns `now`; when the parse succeeds and sits more than 300
days before `last_timestamp`, the string is re-parsed with the previous
year — a re-parse failure (Feb 29 of a leap year) also returns `now`. -/
def parseSyslogTimestamp (now : PyDateTime) (ts : String)
    (reference last : Option PyDateTime) : PyDateTime :=
  match strptimeTS (resolveYear now reference) ts with
  | none => now
  | some dt =>
    match last with
    | some lt =>
      if 300 < timedeltaDays lt dt then
        match strptimeTS (resolveYear now reference - 1) ts with
        | some dt2 => dt2
        | none => now
      else dt
    | none => dt

/-! ## SSH log line shapes (core/log_parser.py, the Linux regexes)

The four Linux patterns are token-separated: every repeated character
class is followed by a class disjoint from it (`\S+` then `\s+`, `\d+`
then `]` or `\s`), so the backtracking regex engine is equivalent to
deterministic maximal munch, which is what these combinators implement.
Optional groups commit on local success; as argued case by case in the
lemmas below, the untaken alternative can never succeed where the taken
one fails, because the following character classes exclude the literals'
characters. -/

/-- `\w` restricted to ASCII, as syslog hostnames and month names use. -/
def isWordChar (c : Char) : Bool :=
  c.isAlphanum || c == '_'

/-- `[\d:]`, the time-of-day class. -/
def isDigitColon (c : Char) : Bool :=
  c.isDigit || c == ':'

/-- `\S`. -/
def isNonSpace (c : Char) : Bool :=
  !(pyIsSpace c)

/-- `[\d.]`, the dotted-quad branch of the ip alternation. -/
def isDigitDot (c : Char) : Bool :=
  c.isDigit || c == '.'

/-- `[0-9a-fA-F:]`, the IPv6 branch of the ip alternation. -/
def isHexColon (c : Char) : Bool :=
  c.isDigit || ('a' ≤ c && c ≤ 'f') || ('A' ≤ c && c ≤ 'F') || c == ':'

/-- Greedy `class+`: the maximal nonempty run satisfying `p` and the
remainder. -/
def munch1 (p : Char → Bool) (cs : List Char) : Option (List Char × List Char) :=
  match cs.takeWhile p with
  | [] => none
  | tok => some (tok, cs.drop tok.length)

/-- A literal, returning the remainder. -/
def lit : List Char → List Char → Option (List Char)
  | [], cs => some cs
  | _ :: _, [] => none
  | x :: xs, c :: cs => if c = x then lit xs cs else none

/-- Head-of-remainder whitespace test (every use of the ip group is
followed by `\s+`, so the alternation resolves on it). -/
def nextIsSpace : List Char → Bool
  | [] => false
  | c :: _ => pyIsSpace c

/-- The `(?P<ip>[\d.]+|[0-9a-fA-F:]+)` alternation followed by `\s+`:
the dotted branch wins when its maximal run ends at whitespace,
otherwise the IPv6 branch must. -/
def munchIp (cs : List Char) : Option (List Char × List Char) :=
  let t1 := cs.takeWhile isDigitDot
  if !t1.isEmpty && nextIsSpace (cs.drop t1.length) then some (t1, cs.drop t1.length)
  else
    let t2 := cs.takeWhile isHexColon
    if !t2.isEmpty && nextIsSpace (cs.drop t2.length) then some (t2, cs.drop t2.length)
    else none

/-- The `(?P<method>publickey|password|keyboard-interactive)`
alternation (the literals are mutually exclusive). -/
def munchMethod (cs : List Char) : Option (List Char × List Char) :=
  match lit ("publickey".toList) cs with
  | some rest => some ("publickey".toList, rest)
  | none =>
    match lit ("password".toList) cs with
    | some rest => some ("password".toList, rest)
    | none =>
      match lit ("keyboard-interactive".toList) cs with
      | some rest => some ("keyboard-interactive".toList, rest)
      | none => none

/-- The captured groups a Linux sshd pattern can bind. -/
structure ReMatch where
  timestamp : List Char
  hostname : List Char
  pid : List Char
  method : Option (List Char)
  username : Option (List Char)
  ip : List Char
  port : Option (List Char)
  fingerprint : Option (List Char)
  deriving DecidableEq, Repr

/-- The shared head `(?P<timestamp>\w+\s+\d+\s+[\d:]+)\s+(?P<hostname>\S+)\s+`
followed by `sshd\[(?P<pid>\d+)\]:\s+`; returns (timestamp, hostname,
pid, remainder). -/
def matchHead (cs : List Char) : Option (List Char × List Char × List Char × List Char) :=
  match munch1 isWordChar cs with
  | none => none
  | some (t1, r1) =>
    match munch1 pyIsSpace r1 with
    | none => none
    | some (s1, r2) =>
      match munch1 Char.isDigit r2 with
      | none => none
      | some (t2, r3) =>
        match munch1 pyIsSpace r3 with
        | none => none
        | some (s2, r4) =>
          match munch1 isDigitColon r4 with
          | none => none
          | some (t3, r5) =>
            match munch1 pyIsSpace r5 with
            | none => none
            | some (_, r6) =>
              match munch1 isNonSpace r6 with
              | none => none
              | some (host, r7) =>
                match munch1 pyIsSpace r7 with
                | none => none
                | some (_, r8) =>
                  match lit ("sshd[".toList) r8 with
                  | none => none
                  | some r9 =>
                    match munch1 Char.isDigit r9 with
                    | none => none
                    | some (pid, r10) =>
                      match lit ("]:".toList) r10 with
                      | none => none
                      | some r11 =>
                        match munch1 pyIsSpace r11 with
                        | none => none
                        | some (_, r12) =>
                          some (t1 ++ s1 ++ t2 ++ s2 ++ t3, host, pid, r12)

/-- The optional tail `(?:ssh2:\s+\S+\s+(?P<fingerprint>\S+))?`:
all-or-nothing, committing on local success. -/
def matchSsh2Tail (cs : List Char) : Option (List Char) :=
  match lit ("ssh2:".toList) cs with
  | none => none
  | some r1 =>
    match munch1 pyIsSpace r1 with
    | none => none
    | some (_, r2) =>
      match munch1 isNonSpace r2 with
      | none => none
      | some (_, r3) =>
        match munch1 pyIsSpace r3 with
        | none => none
        | some (_, r4) =>
          match munch1 isNonSpace r4 with
          | none => none
          | some (fp, _) => some fp

/-- The common body of `_ACCEPTED_KEY_RE` and `_FAILED_RE` after the
verb: method, `for`, the optional `invalid user` (Failed only),
username, `from`, ip, `port`, digits, `\s+`, optional ssh2 tail. -/
def matchAuthBody (invalidUserOpt : Bool) (ts host pid : List Char)
    (cs : List Char) : Option ReMatch :=
  match munch1 pyIsSpace cs with
  | none => none
  | some (_, r1) =>
    match munchMethod r1 with
    | none => none
    | some (method, r2) =>
      match munch1 pyIsSpace r2 with
      | none => none
      | some (_, r3) =>
        match lit ("for".toList) r3 with
        | none => none
        | some r4 =>
          match munch1 pyIsSpace r4 with
          | none => none
          | some (_, r5) =>
            let r5 :=
              if invalidUserOpt then
                match lit ("invalid user".toList) r5 with
                | none => r5
                | some ru =>
                  match munch1 pyIsSpace ru with
                  | none => r5
                  | some (_, ru2) => ru2
              else r5
            match munch1 isNonSpace r5 with
            | none => none
            | some (user, r6) =>
              match munch1 pyIsSpace r6 with
              | none => none
              | some (_, r7) =>
                match lit ("from".toList) r7 with
                | none => none
                | some r8 =>
                  match munch1 pyIsSpace r8 with
                  | none => none
                  | some (_, r9) =>
                    match munchIp r9 with
                    | none => none
                    | some (ip, r10) =>
                      match munch1 pyIsSpace r10 with
                      | none => none
                      | some (_, r11) =>
                        match lit ("port".toList) r11 with
                        | none => none
                        | some r12 =>
                          match munch1 pyIsSpace r12 with
                          | none => none
                          | some (_, r13) =>
                            match munch1 Char.isDigit r13 with
                            | none => none
                            | some (port, r14) =>
                              match munch1 pyIsSpace r14 with
                              | none => none
                              | some (_, r15) =>
                                some { timestamp := ts, hostname := host,
                                       pid := pid, method := some method,
                                       username := some user, ip := ip,
                                       port := some port,
                                       fingerprint := matchSsh2Tail r15 }

/-- `_ACCEPTED_KEY_RE` as a whole-line matcher from position 0. -/
def matchAccepted (cs : List Char) : Option ReMatch :=
  match matchHead cs with
  | none => none
  | some (ts, host, pid, r) =>
    match lit ("Accepted".toList) r with
    | none => none
    | some r1 => matchAuthBody false ts host pid r1

/-- `_FAILED_RE` as a whole-line matcher from position 0. -/
def matchFailed (cs : List Char) : Option ReMatch :=
  match matchHead cs with
  | none => none
  | some (ts, host, pid, r) =>
    match lit ("Failed".toList) r with
    | none => none
    | some r1 => matchAuthBody true ts host pid r1

/-- `_INVALID_USER_RE` as a whole-line matcher from position 0. -/
def matchInvalidUser (cs : List Char) : Option ReMatch :=
  match matchHead cs with
  | none => none
  | some (ts, host, pid, r) =>
    match lit ("Invalid user".toList) r with
    | none => none
    | some r1 =>
      match munch1 pyIsSpace r1 with
      | none => none
      | some (_, r2) =>
        match munch1 isNonSpace r2 with
        | none => none
        | some (user, r3) =>
          match munch1 pyIsSpace r3 with
          | none => none
          | some (_, r4) =>
            match lit ("from".toList) r4 with
            | none => none
            | some r5 =>
              match munch1 pyIsSpace r5 with
              | none => none
              | some (_, r6) =>
                match munchIp r6 with
                | none => none
                | some (ip, r7) =>
                  match munch1 pyIsSpace r7 with
                  | none => none
                  | some (_, r8) =>
                    match lit ("port".toList) r8 with
                    | none => none
                    | some r9 =>
                      match munch1 pyIsSpace r9 with
                      | none => none
                      | some (_, r10) =>
                        match munch1 Char.isDigit r10 with
                        | none => none
                        | some (port, _) =>
                          some { timestamp := ts, hostname := host,
                                 pid := pid, method := none,
                                 username := some user, ip := ip,
                                 port := some port, fingerprint := none }

/-- `_DISCONNECT_RE` as a whole-line matcher from position 0. -/
def matchDisconnect (cs : List Char) : Option ReMatch :=
  match matchHead cs with
  | none => none
  | some (ts, host, pid, r) =>
    match lit ("Disconnected from".toList) r with
    | none => none
    | some r1 =>
      match munch1 pyIsSpace r1 with
      | none => none
      | some (_, r2) =>
        let r2 :=
          match lit ("authenticating".toList) r2 with
          | none => r2
          | some ra =>
            match munch1 pyIsSpace ra with
            | none => r2
            | some (_, ra2) => ra2
        let userRest :=
          match lit ("user".toList) r2 with
          | none => (none, r2)
          | some ru =>
            match munch1 pyIsSpace ru with
            | none => (none, r2)
            | some (_, ru2) =>
              match munch1 isNonSpace ru2 with
              | none => (none, r2)
              | some (user, ru3) =>
                match munch1 pyIsSpace ru3 with
                | none => (none, r2)
                | some (_, ru4) => (some user, ru4)
        match munchIp userRest.2 with
        | none => none
        | some (ip, r3) =>
          match munch1 pyIsSpace r3 with
          | none => none
          | some (_, r4) =>
            match lit ("port".toList) r4 with
            | none => none
            | some r5 =>
              match munch1 pyIsSpace r5 with
              | none => none
              | some (_, r6) =>
                match munch1 Char.isDigit r6 with
                | none => none
                | some (port, _) =>
                  some { timestamp := ts, hostname := host,
                         pid := pid, method := none,
                         username := userRest.1, ip := ip,
                         port := some port, fingerprint := none }

/-- Substring test, for the `"sshd[" not in line` guard. -/
def isSubstring (needle hay : List Char) : Bool :=
  hay.tails.any (fun t => needle.isPrefixOf t)

/-- The parsed `AuthEvent` dataclass. -/
structure AuthEventRec where
  timestamp : PyDateTime
  source_ip : String
  username : Option String
  auth_method : Option String
  event_type : String
  fingerprint : Option String
  port : Option Nat
  pid : Option Nat
  raw_line : String
  deriving DecidableEq, Repr

/-- Value of a digit token (`int()` on the port and pid captures). -/
def natOfDigits (cs : List Char) : Nat :=
  cs.foldl (fun a c => a * 10 + (c.toNat - 48)) 0

/-- Build the `AuthEvent` from a match, as the constructor call in
`parse_line` does. -/
def buildAuthEvent (now : PyDateTime) (reference last : Option PyDateTime)
    (raw : String) (m : ReMatch) (etype : String) : AuthEventRec :=
  { timestamp := parseSyslogTimestamp now (String.mk m.timestamp) reference last
    source_ip := String.mk m.ip
    username := m.username.map String.mk
    auth_method := m.method.map String.mk
    event_type := etype
    fingerprint := m.fingerprint.map String.mk
    port := m.port.map natOfDigits
    pid := some (natOfDigits m.pid)
    raw_line := raw }

/-- Model of `parse_line` for `os_type="linux"`: strip, require a
nonempty line containing `sshd[`, and try the four patterns in order. -/
def parseLineLinux (now : PyDateTime) (line : String)
    (reference last : Option PyDateTime) : Option AuthEventRec :=
  let l := pyStrip line
  if l = "" || !(isSubstring ("sshd[".toList) l.toList) then none
  else
    match matchAccepted l.toList with
    | some m => some (buildAuthEvent now reference last l m "accepted")
    | none =>
      match matchFailed l.toList with
      | some m => some (buildAuthEvent now reference last l m "failed")
      | none =>
        match matchInvalidUser l.toList with
        | some m => some (buildAuthEvent now reference last l m "invalid_user")
        | none =>
          match matchDisconnect l.toList with
          | some m => some (buildAuthEvent now reference last l m "disconnected")
          | none => none

/-- A nonempty token drawn entirely from the character class `p` — the
text matched by a `class+` atom of the Linux sshd regexes. -/
abbrev tokenOf (p : Char → Bool) (t : List Char) : Prop :=
  t ≠ [] ∧ ∀ c ∈ t, p c = true

/-! ## Theorems -/

/-- C3: `classify_severity` is decided by the first matching rule:
critical iff the username is root and a fingerprint is present; high iff
a fingerprint is present, the user is not root and the source is not in
a private range; medium iff a fingerprint is present, the user is not
root and the source is private; low iff no fingerprint is present — and
the four S3 instances evaluate as the spec states. -/
theorem C3_classify_severity_rules :
    ∀ (ip : String) (u fp : Option String),
      (classifySeverity ip u fp = "critical" ↔ u = some "root" ∧ pyTruthy fp = true)
      ∧ (classifySeverity ip u fp = "high" ↔
          pyTruthy fp = true ∧ u ≠ some "root" ∧ isPrivateIp ip = false)
      ∧ (classifySeverity ip u fp = "medium" ↔
          pyTruthy fp = true ∧ u ≠ some "root" ∧ isPrivateIp ip = true)
      ∧ (classifySeverity ip u fp = "low" ↔ pyTruthy fp = false)
      ∧ classifySeverity "203.0.113.9" (some "root") (some "SHA256:xyz") = "critical"
      ∧ classifySeverity "203.0.113.9" (some "alice") (some "SHA256:xyz") = "high"
      ∧ classifySeverity "10.2.3.4" none (some "SHA256:xyz") = "medium"
      ∧ classifySeverity "203.0.113.9" none none = "low" := by
  intro ip u fp
  refine ⟨?_, ?_, ?_, ?_, by decide, by decide, by decide, by decide⟩ <;>
  · by_cases hr : u = some "root" <;> by_cases ht : pyTruthy fp <;>
      by_cases hp : isPrivateIp ip <;>
      simp [classifySeverity, hr, ht, hp]

/-- C10: the spider's chain-following step calls the severity classifier
with neither username nor fingerprint, so the classification is "low"
for every source ip, and every `UnreachableSource` row it creates has
severity "low" and a NULL fingerprint. -/
theorem C10_chain_following_low_severity :
    ∀ (db : List URow) (ip : String) (rdns : Option String) (tid : Nat),
      classifySeverity ip none none = "low"
      ∧ ((processSourceIpUnreachable db ip rdns tid).2.1 = true →
          (processSourceIpUnreachable db ip rdns tid).1.severity = "low"
          ∧ (processSourceIpUnreachable db ip rdns tid).1.fingerprint = none) := by
  intro db ip rdns tid
  have hlow : classifySeverity ip none none = "low" := by
    simp [classifySeverity, pyTruthy]
  refine ⟨hlow, ?_⟩
  cases hfind : db.find? (fun r =>
      r.source_ip == ip && r.fingerprint == none && r.target_server_id == tid) with
  | none => simp [processSourceIpUnreachable, hfind, hlow]
  | some r => simp [processSourceIpUnreachable, hfind]

/-- C7: `get_or_create` is an idempotent upsert: a second call with the
same key fields returns the same row with `created = false` and the same
table; a call that finds an existing row changes nothing and applies no
defaults; a call that creates flushes the row, so its id is the table's
next sequence value and the row is readable in the new table. -/
theorem C7_get_or_create_idempotent {K D : Type} [DecidableEq K]
    (t : Table K D) (k : K) (d : D) (r1 : Row K D) (c1 : Bool) (t1 : Table K D)
    (hcall : getOrCreate t k d = some (r1, c1, t1)) :
    getOrCreate t1 k d = some (r1, false, t1)
    ∧ (c1 = false → t1 = t ∧ r1 ∈ t.rows ∧ r1.key = k)
    ∧ (c1 = true → r1.rid = t.nextId ∧ r1.key = k ∧ r1.data = d
        ∧ t1.rows = t.rows ++ [r1]) := by
  cases hfilter : t.rows.filter (fun r => decide (r.key = k)) with
  | nil =>
    simp only [getOrCreate, lookupOne, hfilter, Option.some.injEq, Prod.mk.injEq] at hcall
    obtain ⟨hr, hc, ht⟩ := hcall
    subst hr; subst hc; subst ht
    refine ⟨?_, by simp, fun _ => ⟨rfl, rfl, rfl, by simp⟩⟩
    simp [getOrCreate, lookupOne, List.filter_append, hfilter]
  | cons r rest =>
    cases rest with
    | nil =>
      simp only [getOrCreate, lookupOne, hfilter, Option.some.injEq, Prod.mk.injEq] at hcall
      obtain ⟨hr, hc, ht⟩ := hcall
      subst hr; subst hc; subst ht
      have hmem : r ∈ t.rows.filter (fun r => decide (r.key = k)) := by
        rw [hfilter]; exact List.mem_singleton.mpr rfl
      refine ⟨by simp [getOrCreate, lookupOne, hfilter], fun _ => ⟨rfl, ?_, ?_⟩, by simp⟩
      · exact List.mem_of_mem_filter hmem
      · simpa using List.of_mem_filter hmem
    | cons r2 rest2 =>
      exfalso
      simp [getOrCreate, lookupOne, hfilter] at hcall

/-- Witness for C7 at a concrete table: creating then re-fetching. -/
theorem C7_get_or_create_idempotent_witness :
    getOrCreate (⟨[], 7⟩ : Table Nat String) 3 "v" =
      some (⟨7, 3, "v"⟩, true, (⟨[⟨7, 3, "v"⟩], 8⟩ : Table Nat String))
    ∧ getOrCreate (⟨[⟨7, 3, "v"⟩], 8⟩ : Table Nat String) 3 "v" =
      some (⟨7, 3, "v"⟩, false, (⟨[⟨7, 3, "v"⟩], 8⟩ : Table Nat String)) := by
  refine ⟨by decide, ?_⟩
  exact (C7_get_or_create_idempotent (⟨[], 7⟩ : Table Nat String) 3 "v"
    ⟨7, 3, "v"⟩ true (⟨[⟨7, 3, "v"⟩], 8⟩ : Table Nat String) (by decide)).1

/-- The crawl-loop invariant: visited keys are unique, processed entries
have unique keys already in the visited set, and processed depths are
within bound. -/
def CrawlInv (maxDepth : Nat) (s : CrawlState) : Prop :=
  s.visited.Nodup
  ∧ (s.processed.map (fun e => serverKey e.1 e.2.1)).Nodup
  ∧ (∀ e ∈ s.processed, serverKey e.1 e.2.1 ∈ s.visited)
  ∧ (∀ e ∈ s.processed, e.2.2 ≤ maxDepth)

/-- One crawl step preserves the crawl invariant. -/
theorem crawlStep_inv (maxDepth : Nat)
    (children : String → Nat → Nat → List (String × Nat × Nat))
    (s : CrawlState) (hinv : CrawlInv maxDepth s) :
    CrawlInv maxDepth (crawlStep maxDepth children s) := by
  obtain ⟨h1, h2, h3, h4⟩ := hinv
  unfold crawlStep
  cases hq : s.queue with
  | nil => exact ⟨h1, h2, h3, h4⟩
  | cons e rest =>
    obtain ⟨hn, p, d⟩ := e
    by_cases hv : serverKey hn p ∈ s.visited
    · simp only [hv, if_true]
      exact ⟨h1, h2, h3, h4⟩
    · simp only [hv, if_false]
      by_cases hd : d > maxDepth
      · simp only [hd, if_true]
        exact ⟨h1, h2, h3, h4⟩
      · simp only [hd, if_false]
        refine ⟨?_, ?_, ?_, ?_⟩
        · rw [List.nodup_append]
          exact ⟨h1, List.nodup_singleton _, by
            intro a ha hb
            rw [List.mem_singleton] at hb
            exact hv (hb ▸ ha)⟩
        · rw [List.map_append, List.nodup_append]
          refine ⟨h2, by simp, ?_⟩
          intro a ha hb
          simp only [List.map_cons, List.map_nil, List.mem_singleton] at hb
          subst hb
          obtain ⟨e, he, hkey⟩ := List.mem_map.mp ha
          exact hv (hkey ▸ h3 e he)
        · intro e he
          rw [List.mem_append] at he
          cases he with
          | inl h => exact List.mem_append_left _ (h3 e h)
          | inr h =>
            rw [List.mem_singleton] at h
            subst h
            simp
        · intro e he
          rw [List.mem_append] at he
          cases he with
          | inl h => exact h4 e h
          | inr h =>
            rw [List.mem_singleton] at h
            subst h
            show d ≤ maxDepth
            omega

/-- Iterating the crawl loop preserves the crawl invariant. -/
theorem crawlRun_inv (maxDepth : Nat)
    (children : String → Nat → Nat → List (String × Nat × Nat)) :
    ∀ (n : Nat) (s : CrawlState), CrawlInv maxDepth s →
      CrawlInv maxDepth (crawlRun maxDepth children n s) := by
  intro n
  induction n with
  | zero => intro s h; exact h
  | succ m ih =>
    intro s h
    exact ih _ (crawlStep_inv maxDepth children s h)

/-- C5: over any number of crawl iterations from a seed, each
`host:port` key enters `visited` at most once, each frontier entry is
processed at most once and only at depth ≤ `max_depth`, and a popped
entry deeper than `max_depth` is discarded without touching `visited`
or being processed. -/
theorem C5_crawl_dedup_depth_bound :
    ∀ (maxDepth : Nat) (children : String → Nat → Nat → List (String × Nat × Nat))
      (seed : String) (port n : Nat),
      (crawlRun maxDepth children n (crawlInit seed port)).visited.Nodup
      ∧ ((crawlRun maxDepth children n (crawlInit seed port)).processed.map
          (fun e => serverKey e.1 e.2.1)).Nodup
      ∧ (∀ e ∈ (crawlRun maxDepth children n (crawlInit seed port)).processed,
          e.2.2 ≤ maxDepth)
      ∧ (∀ (s : CrawlState) (h : String) (p d : Nat) (rest : List (String × Nat × Nat)),
          s.queue = (h, p, d) :: rest → maxDepth < d →
            crawlStep maxDepth children s =
              { queue := rest, visited := s.visited, processed := s.processed }) := by
  intro maxDepth children seed port n
  have hinv : CrawlInv maxDepth (crawlRun maxDepth children n (crawlInit seed port)) := by
    refine crawlRun_inv maxDepth children n _ ?_
    exact ⟨List.nodup_nil, List.nodup_nil, by simp [crawlInit], by simp [crawlInit]⟩
  obtain ⟨h1, h2, _, h4⟩ := hinv
  refine ⟨h1, h2, h4, ?_⟩
  intro s h p d rest hq hd
  unfold crawlStep
  rw [hq]
  by_cases hv : serverKey h p ∈ s.visited
  · simp only [hv, if_true]
  · simp only [hv, if_false, show d > maxDepth from hd, if_true]

/-- Every path in the BFS queue of `find_paths` is a nonempty simple
path from `src` along graph edges, at most 11 nodes long. -/
def PathOk (adj : Nat → List Nat) (src : Nat) (q : List Nat) : Prop :=
  q ≠ [] ∧ q.Nodup ∧ q.head? = some src ∧ q.length ≤ 11
    ∧ q.Chain' (fun a b => b ∈ adj a)

/-- The BFS loop of `find_paths` only returns well-formed simple paths
ending at the destination, never more than 100 of them. -/
theorem findPathsAux_inv (adj : Nat → List Nat) (src dst : Nat) :
    ∀ (fuel : Nat) (queue found : List (List Nat)),
      (∀ q ∈ queue, PathOk adj src q) →
      (∀ f ∈ found, PathOk adj src f ∧ f.getLast? = some dst) →
      found.length ≤ 100 →
      (∀ f ∈ findPathsAux adj dst fuel queue found,
        PathOk adj src f ∧ f.getLast? = some dst)
      ∧ (findPathsAux adj dst fuel queue found).length ≤ 100 := by
  intro fuel
  induction fuel with
  | zero => intro queue found _ hf hlen; exact ⟨hf, hlen⟩
  | succ m ih =>
    intro queue found hq hf hlen
    cases queue with
    | nil => exact ⟨hf, hlen⟩
    | cons path rest =>
      have hqrest : ∀ q ∈ rest, PathOk adj src q :=
        fun q hq2 => hq q (List.mem_cons_of_mem _ hq2)
      have hpath : PathOk adj src path := hq path (List.mem_cons_self _ _)
      simp only [findPathsAux]
      by_cases hfull : found.length ≥ 100
      · simp only [if_pos hfull]
        exact ⟨hf, hlen⟩
      · simp only [if_neg hfull]
        cases hlast : path.getLast? with
        | none => exact ih rest found hqrest hf hlen
        | some cur =>
          by_cases hdst : cur = dst
          · subst hdst
            simp only [if_pos rfl]
            refine ih rest (found ++ [path]) hqrest ?_ ?_
            · intro f hfmem
              rw [List.mem_append] at hfmem
              cases hfmem with
              | inl h => exact hf f h
              | inr h =>
                rw [List.mem_singleton] at h
                subst h
                exact ⟨hpath, hlast⟩
            · rw [List.length_append]
              simp only [List.length_cons, List.length_nil]
              omega
          · simp only [if_neg hdst]
            by_cases hlong : path.length > 10
            · simp only [if_pos hlong]
              exact ih rest found hqrest hf hlen
            · simp only [if_neg hlong]
              refine ih _ found ?_ hf hlen
              intro q hq2
              rw [List.mem_append] at hq2
              cases hq2 with
              | inl h => exact hqrest q h
              | inr h =>
                obtain ⟨n, hn, rfl⟩ := List.mem_map.mp h
                rw [List.mem_filter] at hn
                obtain ⟨hadj, hnotin⟩ := hn
                have hnotmem : n ∉ path := by simpa using hnotin
                obtain ⟨hne, hnd, hhead, hlen11, hchain⟩ := hpath
                refine ⟨by simp, ?_, ?_, ?_, ?_⟩
                · rw [List.nodup_append]
                  refine ⟨hnd, List.nodup_singleton _, ?_⟩
                  intro a ha hb
                  rw [List.mem_singleton] at hb
                  exact hnotmem (hb ▸ ha)
                · rw [List.head?_append_of_ne_nil _ hne]
                  exact hhead
                · rw [List.length_append]
                  simp only [List.length_cons, List.length_nil]
                  omega
                · rw [List.chain'_append]
                  refine ⟨hchain, List.chain'_singleton _, ?_⟩
                  intro x hx y hy
                  rw [hlast] at hx
                  simp only [Option.mem_def, Option.some.injEq] at hx
                  simp only [List.head?_cons, Option.mem_def, Option.some.injEq] at hy
                  subst hx; subst hy
                  exact hadj

/-- C9: `find_paths` returns at most 100 paths; every returned path is a
simple path (no repeated node) from `src` to `dst` of at most 10 hops
(11 nodes) whose edges are exactly the active access paths with a
non-null source. -/
theorem C9_find_paths_caps :
    ∀ (paths : List APath) (src dst fuel : Nat),
      (findPaths (buildAdjacency paths) src dst fuel).length ≤ 100
      ∧ (∀ p ∈ findPaths (buildAdjacency paths) src dst fuel,
          p.Nodup ∧ p.head? = some src ∧ p.getLast? = some dst ∧ p.length ≤ 11
          ∧ p.Chain' (fun a b => b ∈ buildAdjacency paths a))
      ∧ (∀ a b, b ∈ buildAdjacency paths a ↔
          ∃ ap ∈ paths, ap.is_active = true ∧ ap.source_server_id = some a
            ∧ ap.target_server_id = b) := by
  intro paths src dst fuel
  have hinit : ∀ q ∈ [[src]], PathOk (buildAdjacency paths) src q := by
    intro q hq
    rw [List.mem_singleton] at hq
    subst hq
    exact ⟨by simp, List.nodup_singleton _, rfl, by simp, List.chain'_singleton _⟩
  have main := findPathsAux_inv (buildAdjacency paths) src dst fuel [[src]] []
    hinit (by simp) (by simp)
  refine ⟨main.2, ?_, ?_⟩
  · intro p hp
    obtain ⟨⟨_, hnd, hhead, hlen, hchain⟩, hlast⟩ := main.1 p hp
    exact ⟨hnd, hhead, hlast, hlen, hchain⟩
  · intro a b
    rw [buildAdjacency, List.mem_filterMap]
    constructor
    · rintro ⟨ap, hmem, hsome⟩
      by_cases hcond : ap.is_active && ap.source_server_id == some a
      · rw [if_pos hcond] at hsome
        rw [Bool.and_eq_true, beq_iff_eq] at hcond
        exact ⟨ap, hmem, hcond.1, hcond.2, Option.some.inj hsome⟩
      · rw [if_neg hcond] at hsome
        exact absurd hsome (by simp)
    · rintro ⟨ap, hmem, hact, hsrc, htgt⟩
      refine ⟨ap, hmem, ?_⟩
      rw [if_pos (by rw [Bool.and_eq_true, beq_iff_eq]; exact ⟨hact, hsrc⟩)]
      rw [htgt]

/-- C1 counterexample: a host whose only `AccessPath` has a NULL
`ssh_key_id` (an accepted password login, say).  After reconciliation
the path still targets the host with `is_used = true`, yet `U` is empty,
so `is_used` does not equal `ssh_key_id ∈ U` as the claim requires for
every `AccessPath` of the host — the code's `ssh_key_id.isnot(None)`
filter skips NULL-key paths. -/
theorem C1_null_key_path_counterexample :
    (crossReferenceLayers (⟨[], [], [⟨none, 1, none, some "u", true, false, true⟩]⟩ : GraphDb) 1).paths
      = [⟨none, 1, none, some "u", true, false, true⟩]
    ∧ (⟨none, 1, none, some "u", true, false, true⟩ : APath).target_server_id = 1
    ∧ (⟨none, 1, none, some "u", true, false, true⟩ : APath).is_used = true
    ∧ (⟨none, 1, none, some "u", true, false, true⟩ : APath).ssh_key_id = none
    ∧ usedKeyIds (⟨[], [], [⟨none, 1, none, some "u", true, false, true⟩]⟩ : GraphDb) 1 = []
    ∧ authorizedKeyIds (⟨[], [], [⟨none, 1, none, some "u", true, false, true⟩]⟩ : GraphDb) 1 = [] := by
  refine ⟨?_, rfl, rfl, rfl, rfl, rfl⟩
  rfl

/-- `reconcileLoc` only ever rewrites the `graph_layer` field. -/
theorem reconcileLoc_fields (sid : Nat) (A U : List Nat) (l : KeyLoc) :
    (reconcileLoc sid A U l).server_id = l.server_id
    ∧ (reconcileLoc sid A U l).file_type = l.file_type
    ∧ (reconcileLoc sid A U l).ssh_key_id = l.ssh_key_id := by
  unfold reconcileLoc
  split <;> simp

/-- C1 (amended): after `_cross_reference_layers` for a host, every
`authorized_keys` location on the host whose key is in `A ∩ U` has
`graph_layer = "both"`; a location whose key is not in `U` is left
unchanged (so one in `A \ U` keeps its prior layer, `authorization`);
locations are only rewritten pointwise; and every `AccessPath` targeting
the host whose `ssh_key_id` is non-NULL gets
`is_authorized = (key ∈ A)` and `is_used = (key ∈ U)`. -/
theorem C1_layer_reconciliation :
    ∀ (db : GraphDb) (sid : Nat),
      (∀ l ∈ (crossReferenceLayers db sid).locations,
        l.server_id = sid → l.file_type = "authorized_keys" →
        l.ssh_key_id ∈ authorizedKeyIds db sid → l.ssh_key_id ∈ usedKeyIds db sid →
        l.graph_layer = "both")
      ∧ (∀ l ∈ db.locations,
          l.ssh_key_id ∉ usedKeyIds db sid →
          reconcileLoc sid (authorizedKeyIds db sid) (usedKeyIds db sid) l = l)
      ∧ ((crossReferenceLayers db sid).locations =
          db.locations.map (reconcileLoc sid (authorizedKeyIds db sid) (usedKeyIds db sid)))
      ∧ (∀ p ∈ (crossReferenceLayers db sid).paths, p.target_server_id = sid →
          ∀ k, p.ssh_key_id = some k →
            (p.is_authorized = true ↔ k ∈ authorizedKeyIds db sid)
            ∧ (p.is_used = true ↔ k ∈ usedKeyIds db sid)) := by
  intro db sid
  refine ⟨?_, ?_, rfl, ?_⟩
  · intro l hl hsrv hft hA hU
    obtain ⟨l0, _, rfl⟩ := List.mem_map.mp hl
    obtain ⟨f1, f2, f3⟩ := reconcileLoc_fields sid (authorizedKeyIds db sid) (usedKeyIds db sid) l0
    rw [f1] at hsrv
    rw [f2] at hft
    rw [f3] at hA hU
    have hcond : (l0.server_id == sid && l0.file_type == "authorized_keys"
        && (authorizedKeyIds db sid).contains l0.ssh_key_id
        && (usedKeyIds db sid).contains l0.ssh_key_id) = true := by
      simp only [Bool.and_eq_true, beq_iff_eq]
      exact ⟨⟨⟨hsrv, hft⟩, by simpa using hA⟩, by simpa using hU⟩
    simp only [reconcileLoc, hcond, if_true]
  · intro l _ hU
    simp only [reconcileLoc]
    rw [if_neg]
    simp only [Bool.and_eq_true, beq_iff_eq, not_and]
    intro _ hcont
    exact hU (by simpa using hcont)
  · intro p hp htgt k hk
    obtain ⟨p0, _, rfl⟩ := List.mem_map.mp hp
    cases hkey : p0.ssh_key_id with
    | none =>
      simp only [reconcilePath, hkey] at hk
      exact absurd hk (by simp)
    | some k0 =>
      by_cases hts : (p0.target_server_id == sid) = true
      · simp only [reconcilePath, hkey, hts, if_true] at hk ⊢
        have hkk : k = k0 := by simpa using hk.symm
        subst hkk
        constructor
        · constructor
          · intro h; simpa using h
          · intro h; simpa using h
        · constructor
          · intro h; simpa using h
          · intro h; simpa using h
      · exfalso
        simp only [reconcilePath, hkey, hts, if_false] at htgt
        exact hts (by simpa using htgt)

/-- The wrapper ids of a pool, in order. -/
def widsOf (ps : List PoolWrapper) : List Nat :=
  ps.map (fun w => w.wid)

/-- The pool invariant: wrapper ids are unique, each `host:port` has at
most `perLimit` entries, and borrowed entries plus available permits
never exceed the semaphore's initial budget. -/
def PoolInv (maxC perLimit : Nat) (s : PoolState) : Prop :=
  (widsOf s.pools).Nodup
  ∧ (∀ k, keyCount s.pools k ≤ perLimit)
  ∧ inUseCount s.pools + s.avail ≤ maxC

theorem markInUse_wids (ps : List PoolWrapper) (i : Nat) :
    widsOf (markInUse ps i) = widsOf ps := by
  induction ps with
  | nil => rfl
  | cons x xs ih =>
    simp only [markInUse, widsOf, List.map_cons] at ih ⊢
    rw [ih]
    by_cases h : (x.wid == i) = true <;> simp [h]

theorem markInUse_keyCount (ps : List PoolWrapper) (i : Nat) (k : String) :
    keyCount (markInUse ps i) k = keyCount ps k := by
  induction ps with
  | nil => rfl
  | cons x xs ih =>
    simp only [markInUse, keyCount, List.map_cons, List.filter_cons] at ih ⊢
    by_cases h : (x.wid == i) = true <;>
      by_cases hk : (poolKey x == k) = true <;>
      simp_all [poolKey]

theorem markInUse_of_absent (ps : List PoolWrapper) (i : Nat)
    (h : ∀ x ∈ ps, x.wid ≠ i) : markInUse ps i = ps := by
  induction ps with
  | nil => rfl
  | cons x xs ih =>
    simp only [markInUse, List.map_cons]
    rw [if_neg (by simpa using h x (List.mem_cons_self _ _))]
    have := ih (fun y hy => h y (List.mem_cons_of_mem _ hy))
    simpa [markInUse] using this

theorem keyCount_append (a b : List PoolWrapper) (k : String) :
    keyCount (a ++ b) k = keyCount a k + keyCount b k := by
  simp [keyCount, List.filter_append]

theorem inUseCount_append (a b : List PoolWrapper) :
    inUseCount (a ++ b) = inUseCount a + inUseCount b := by
  simp [inUseCount, List.filter_append]

theorem uniqueWid (ps : List PoolWrapper) (hnd : (widsOf ps).Nodup)
    (x y : PoolWrapper) (hx : x ∈ ps) (hy : y ∈ ps) (hxy : x.wid = y.wid) :
    x = y :=
  List.inj_on_of_nodup_map hnd hx hy hxy

theorem markInUse_inUseCount (ps : List PoolWrapper) (w : PoolWrapper)
    (hnd : (widsOf ps).Nodup) (hmem : w ∈ ps) (hno : w.inUse = false) :
    inUseCount (markInUse ps w.wid) = inUseCount ps + 1 := by
  induction ps with
  | nil => cases hmem
  | cons x xs ih =>
    simp only [widsOf, List.map_cons, List.nodup_cons] at hnd
    rcases List.mem_cons.mp hmem with rfl | htail
    · rw [markInUse]
      simp only [List.map_cons, beq_self_eq_true, if_true]
      have htail2 : markInUse xs w.wid = xs := by
        apply markInUse_of_absent
        intro y hy hwid
        exact hnd.1 (hwid ▸ List.mem_map_of_mem _ hy)
      show inUseCount ({ w with inUse := true } :: markInUse xs w.wid) = _
      rw [htail2]
      simp [inUseCount, List.filter_cons, hno]
    · have hxw : x.wid ≠ w.wid := by
        intro hwid
        exact hnd.1 (hwid ▸ List.mem_map_of_mem _ htail)
      rw [markInUse]
      simp only [List.map_cons]
      rw [if_neg (by simpa using hxw)]
      show inUseCount (x :: markInUse xs w.wid) = _
      have := ih hnd.2 htail
      simp only [inUseCount, List.filter_cons] at this ⊢
      by_cases hx : x.inUse <;> simp_all [markInUse]

theorem releaseFirst_eq_none (ps : List PoolWrapper) (wid : Nat)
    (h : releaseFirst ps wid = none) : ∀ w ∈ ps, w.wid ≠ wid := by
  induction ps with
  | nil => intro w hw; cases hw
  | cons x xs ih =>
    intro w hw
    rw [releaseFirst] at h
    by_cases hx : (x.wid == wid) = true
    · rw [if_pos hx] at h; cases h
    · rw [if_neg hx] at h
      rcases List.mem_cons.mp hw with rfl | htail
      · simpa using hx
      · exact ih (by
          cases hrec : releaseFirst xs wid with
          | none => rfl
          | some ps2 => rw [hrec] at h; cases h) w htail

theorem releaseFirst_eq_some (ps : List PoolWrapper) (wid : Nat)
    (ps2 : List PoolWrapper) (h : releaseFirst ps wid = some ps2) :
    ∃ pre x suf, ps = pre ++ x :: suf ∧ x.wid = wid
      ∧ ps2 = pre ++ ({ x with inUse := false }) :: suf := by
  induction ps generalizing ps2 with
  | nil => cases h
  | cons y ys ih =>
    rw [releaseFirst] at h
    by_cases hy : (y.wid == wid) = true
    · rw [if_pos hy] at h
      refine ⟨[], y, ys, by simp, by simpa using hy, ?_⟩
      simpa using h.symm
    · rw [if_neg hy] at h
      cases hrec : releaseFirst ys wid with
      | none => rw [hrec] at h; cases h
      | some ps3 =>
        rw [hrec] at h
        obtain ⟨pre, x, suf, h1, h2, h3⟩ := ih ps3 hrec
        refine ⟨y :: pre, x, suf, by rw [h1]; rfl, h2, ?_⟩
        have : ps2 = y :: ps3 := by simpa using h.symm
        rw [this, h3]
        rfl

theorem removeFirst_eq_none (ps : List PoolWrapper) (wid : Nat)
    (h : removeFirst ps wid = none) : ∀ w ∈ ps, w.wid ≠ wid := by
  induction ps with
  | nil => intro w hw; cases hw
  | cons x xs ih =>
    intro w hw
    rw [removeFirst] at h
    by_cases hx : (x.wid == wid) = true
    · rw [if_pos hx] at h; cases h
    · rw [if_neg hx] at h
      rcases List.mem_cons.mp hw with rfl | htail
      · simpa using hx
      · exact ih (by
          cases hrec : removeFirst xs wid with
          | none => rfl
          | some ps2 => rw [hrec] at h; cases h) w htail

theorem removeFirst_eq_some (ps : List PoolWrapper) (wid : Nat)
    (ps2 : List PoolWrapper) (h : removeFirst ps wid = some ps2) :
    ∃ pre x suf, ps = pre ++ x :: suf ∧ x.wid = wid ∧ ps2 = pre ++ suf := by
  induction ps generalizing ps2 with
  | nil => cases h
  | cons y ys ih =>
    rw [removeFirst] at h
    by_cases hy : (y.wid == wid) = true
    · rw [if_pos hy] at h
      exact ⟨[], y, ys, by simp, by simpa using hy, by simpa using h.symm⟩
    · rw [if_neg hy] at h
      cases hrec : removeFirst ys wid with
      | none => rw [hrec] at h; cases h
      | some ps3 =>
        rw [hrec] at h
        obtain ⟨pre, x, suf, h1, h2, h3⟩ := ih ps3 hrec
        refine ⟨y :: pre, x, suf, by rw [h1]; rfl, h2, ?_⟩
        have : ps2 = y :: ps3 := by simpa using h.symm
        rw [this, h3]
        rfl

theorem keyCount_cons (x : PoolWrapper) (b : List PoolWrapper) (k : String) :
    keyCount (x :: b) k = (if poolKey x == k then 1 else 0) + keyCount b k := by
  simp only [keyCount, List.filter_cons]
  split <;> simp <;> omega

theorem inUseCount_cons (x : PoolWrapper) (b : List PoolWrapper) :
    inUseCount (x :: b) = (if x.inUse then 1 else 0) + inUseCount b := by
  simp only [inUseCount, List.filter_cons]
  split <;> simp <;> omega

theorem widsOf_append (a b : List PoolWrapper) :
    widsOf (a ++ b) = widsOf a ++ widsOf b := by
  simp [widsOf]

theorem releaseFirst_isSome (ps : List PoolWrapper) (wid : Nat)
    (h : ∃ w ∈ ps, w.wid = wid) : releaseFirst ps wid ≠ none := by
  intro hnone
  obtain ⟨w, hw, hwid⟩ := h
  exact releaseFirst_eq_none ps wid hnone w hw hwid

theorem removeFirst_isSome (ps : List PoolWrapper) (wid : Nat)
    (h : ∃ w ∈ ps, w.wid = wid) : removeFirst ps wid ≠ none := by
  intro hnone
  obtain ⟨w, hw, hwid⟩ := h
  exact removeFirst_eq_none ps wid hnone w hw hwid
/-- `keyCount` of the empty pool. -/
theorem keyCount_nil (k : String) : keyCount [] k = 0 := rfl

/-- `inUseCount` of the empty pool. -/
theorem inUseCount_nil : inUseCount [] = 0 := rfl

/-- A completed `get_connection` call preserves the pool invariant when
its fresh wrapper id is really fresh (as `uuid4` guarantees). -/
theorem poolStep_get_inv (maxC perLimit : Nat) (s : PoolState)
    (host : String) (port : Nat) (ho co : Bool) (newId : Nat)
    (fresh : ∀ w ∈ s.pools, w.wid ≠ newId)
    (hinv : PoolInv maxC perLimit s) :
    PoolInv maxC perLimit (poolStep perLimit s (.get host port ho co newId)) := by
  obtain ⟨hnd, hkc, hsum⟩ := hinv
  have hfresh : newId ∉ widsOf s.pools := by
    intro hmem
    obtain ⟨w, hw, hwid⟩ := List.mem_map.mp hmem
    exact fresh w hw hwid
  rw [poolStep]
  by_cases havail : s.avail = 0
  · rw [if_pos havail]
    exact ⟨hnd, hkc, hsum⟩
  · rw [if_neg havail]
    cases hfind : s.pools.find? (fun w => poolKey w == serverKey host port && !w.inUse) with
    | some w =>
      have hwmem : w ∈ s.pools := List.mem_of_find?_eq_some hfind
      have hwprop := List.find?_some hfind
      rw [Bool.and_eq_true] at hwprop
      have hwkey : poolKey w = serverKey host port := by simpa using hwprop.1
      have hwfalse : w.inUse = false := by simpa using hwprop.2
      have hmarkin : inUseCount (markInUse s.pools w.wid) = inUseCount s.pools + 1 :=
        markInUse_inUseCount s.pools w hnd hwmem hwfalse
      have hmarknd : (widsOf (markInUse s.pools w.wid)).Nodup := by
        rw [markInUse_wids]; exact hnd
      simp only [hfind]
      cases ho with
      | true =>
        rw [if_pos (show true = true from rfl)]
        refine ⟨hmarknd, ?_, ?_⟩
        · intro k
          show keyCount (markInUse s.pools w.wid) k ≤ perLimit
          rw [markInUse_keyCount]
          exact hkc k
        · show inUseCount (markInUse s.pools w.wid) + (s.avail - 1) ≤ maxC
          rw [hmarkin]
          omega
      | false =>
        rw [if_neg (show ¬(false = true) by simp)]
        cases hrem : removeFirst (markInUse s.pools w.wid) w.wid with
        | none =>
          simp only [hrem]
          exact ⟨hnd, hkc, hsum⟩
        | some dropped =>
          simp only [hrem]
          obtain ⟨pre, x, suf, hdec, hxwid, hdrop⟩ := removeFirst_eq_some _ _ _ hrem
          have hxmem : x ∈ markInUse s.pools w.wid := by
            rw [hdec]
            exact List.mem_append_right _ (List.mem_cons_self _ _)
          have hwmem2 : ({ w with inUse := true } : PoolWrapper) ∈ markInUse s.pools w.wid := by
            have heq : (fun y : PoolWrapper =>
                if y.wid == w.wid then { y with inUse := true } else y) w
                = { w with inUse := true } := by simp
            exact heq ▸ List.mem_map_of_mem _ hwmem
          have hx : x = { w with inUse := true } := by
            refine uniqueWid _ hmarknd x _ hxmem hwmem2 ?_
            rw [hxwid]
          have hxkey : poolKey x = serverKey host port := by rw [hx]; exact hwkey
          have hxuse : x.inUse = true := by rw [hx]
          have hdeck : ∀ k, keyCount s.pools k
              = keyCount pre k + ((if poolKey x == k then 1 else 0) + keyCount suf k) := by
            intro k
            rw [← markInUse_keyCount s.pools w.wid k, hdec, keyCount_append, keyCount_cons]
          have hdeci : inUseCount s.pools + 1 = inUseCount pre + (1 + inUseCount suf) := by
            rw [← hmarkin, hdec, inUseCount_append, inUseCount_cons, hxuse]
            simp
          have hdropnd : (widsOf (pre ++ suf)).Nodup := by
            have hsub : List.Sublist (widsOf (pre ++ suf)) (widsOf (pre ++ x :: suf)) := by
              rw [widsOf_append, widsOf_append]
              exact ((List.Sublist.refl _).cons _).append_left _
            exact (hdec ▸ hmarknd).sublist hsub
          have hdropfresh : newId ∉ widsOf (pre ++ suf) := by
            intro hmem
            apply hfresh
            rw [← markInUse_wids s.pools w.wid, hdec, widsOf_append]
            rw [widsOf_append] at hmem
            rcases List.mem_append.mp hmem with h | h
            · exact List.mem_append_left _ h
            · exact List.mem_append_right _ (List.mem_cons_of_mem _ h)
          rw [hdrop]
          cases co with
          | true =>
            rw [if_pos (show true = true from rfl)]
            refine ⟨?_, ?_, ?_⟩
            · show (widsOf ((pre ++ suf) ++ [⟨newId, host, port, true⟩])).Nodup
              rw [widsOf_append, List.nodup_append]
              refine ⟨hdropnd, by simp [widsOf], ?_⟩
              intro a ha hb
              have hab : a = newId := by simpa [widsOf] using hb
              exact hdropfresh (hab ▸ ha)
            · intro k
              show keyCount ((pre ++ suf) ++ [⟨newId, host, port, true⟩]) k ≤ perLimit
              have e1 : keyCount ((pre ++ suf) ++ [⟨newId, host, port, true⟩]) k
                  = keyCount pre k + keyCount suf k
                    + (if poolKey x == k then 1 else 0) := by
                rw [keyCount_append, keyCount_append, keyCount_cons, keyCount_nil]
                have hcond : (poolKey (⟨newId, host, port, true⟩ : PoolWrapper) == k)
                    = (poolKey x == k) := by
                  rw [show poolKey (⟨newId, host, port, true⟩ : PoolWrapper)
                    = serverKey host port from rfl, hxkey]
                rw [hcond]
                omega
              have e2 := hdeck k
              have e3 := hkc k
              omega
            · show inUseCount ((pre ++ suf) ++ [⟨newId, host, port, true⟩]) + (s.avail - 1) ≤ maxC
              have e1 : inUseCount ((pre ++ suf) ++ [⟨newId, host, port, true⟩])
                  = inUseCount pre + inUseCount suf + 1 := by
                rw [inUseCount_append, inUseCount_append, inUseCount_cons, inUseCount_nil]
                simp
              omega
          | false =>
            rw [if_neg (show ¬(false = true) by simp)]
            refine ⟨hdropnd, ?_, ?_⟩
            · intro k
              show keyCount (pre ++ suf) k ≤ perLimit
              rw [keyCount_append]
              have e2 := hdeck k
              have e3 := hkc k
              omega
            · show inUseCount (pre ++ suf) + (s.avail - 1) ≤ maxC
              rw [inUseCount_append]
              omega
    | none =>
      simp only [hfind]
      by_cases hlim :
          (s.pools.filter (fun w => poolKey w == serverKey host port)).length ≥ perLimit
      · rw [if_pos hlim]
        exact ⟨hnd, hkc, hsum⟩
      · rw [if_neg hlim]
        cases co with
        | true =>
          rw [if_pos (show true = true from rfl)]
          have hlimk : keyCount s.pools (serverKey host port) < perLimit :=
            Nat.lt_of_not_le hlim
          refine ⟨?_, ?_, ?_⟩
          · show (widsOf (s.pools ++ [⟨newId, host, port, true⟩])).Nodup
            rw [widsOf_append, List.nodup_append]
            refine ⟨hnd, by simp [widsOf], ?_⟩
            intro a ha hb
            have hab : a = newId := by simpa [widsOf] using hb
            exact hfresh (hab ▸ ha)
          · intro k
            show keyCount (s.pools ++ [⟨newId, host, port, true⟩]) k ≤ perLimit
            rw [keyCount_append, keyCount_cons, keyCount_nil]
            by_cases hkk : (serverKey host port == k) = true
            · have hkeq : serverKey host port = k := beq_iff_eq.mp hkk
              subst hkeq
              rw [if_pos (show (poolKey (⟨newId, host, port, true⟩ : PoolWrapper)
                == serverKey host port) = true from beq_self_eq_true _)]
              omega
            · rw [if_neg (show ¬((poolKey (⟨newId, host, port, true⟩ : PoolWrapper) == k) = true)
                from by simpa using hkk)]
              have e3 := hkc k
              omega
          · show inUseCount (s.pools ++ [⟨newId, host, port, true⟩]) + (s.avail - 1) ≤ maxC
            rw [inUseCount_append, inUseCount_cons, inUseCount_nil]
            rw [if_pos (show (⟨newId, host, port, true⟩ : PoolWrapper).inUse = true from rfl)]
            omega
        | false =>
          rw [if_neg (show ¬(false = true) by simp)]
          refine ⟨hnd, hkc, ?_⟩
          show inUseCount s.pools + (s.avail - 1) ≤ maxC
          omega

/-- `release_connection` on an id absent from the pool map scans past
every wrapper. -/
theorem releaseFirst_none_of_absent (ps : List PoolWrapper) (wid : Nat)
    (h : ∀ w ∈ ps, w.wid ≠ wid) : releaseFirst ps wid = none := by
  induction ps with
  | nil => rfl
  | cons x xs ih =>
    rw [releaseFirst]
    rw [if_neg (by simpa using h x (List.mem_cons_self _ _))]
    rw [ih (fun y hy => h y (List.mem_cons_of_mem _ hy))]
    rfl

/-- A `release_connection` call for a borrowed handle preserves the pool
invariant. -/
theorem poolStep_release_inv (maxC perLimit : Nat) (s : PoolState) (wid : Nat)
    (borrowed : ∃ w ∈ s.pools, w.wid = wid ∧ w.inUse = true)
    (hinv : PoolInv maxC perLimit s) :
    PoolInv maxC perLimit (poolStep perLimit s (.release wid)) := by
  obtain ⟨hnd, hkc, hsum⟩ := hinv
  obtain ⟨w, hwmem, hwid, htrue⟩ := borrowed
  rw [poolStep]
  cases hrel : releaseFirst s.pools wid with
  | none => exact absurd hrel (releaseFirst_isSome _ _ ⟨w, hwmem, hwid⟩)
  | some ps2 =>
    simp only [hrel]
    obtain ⟨pre, x, suf, hdec, hxwid, hps2⟩ := releaseFirst_eq_some _ _ _ hrel
    have hxmem : x ∈ s.pools := by
      rw [hdec]
      exact List.mem_append_right _ (List.mem_cons_self _ _)
    have hxw : x = w := uniqueWid s.pools hnd x w hxmem hwmem (by rw [hxwid, hwid])
    have hxuse : x.inUse = true := by rw [hxw]; exact htrue
    refine ⟨?_, ?_, ?_⟩
    · show (widsOf ps2).Nodup
      have hw2 : widsOf ps2 = widsOf s.pools := by
        rw [hps2, hdec]
        simp [widsOf]
      rw [hw2]
      exact hnd
    · intro k
      show keyCount ps2 k ≤ perLimit
      have hkeq : keyCount ps2 k = keyCount s.pools k := by
        rw [hps2, hdec, keyCount_append, keyCount_append, keyCount_cons, keyCount_cons]
        rfl
      rw [hkeq]
      exact hkc k
    · show inUseCount ps2 + (s.avail + 1) ≤ maxC
      have h1 : inUseCount s.pools = inUseCount pre + (1 + inUseCount suf) := by
        rw [hdec, inUseCount_append, inUseCount_cons, hxuse]
        simp
      have h2 : inUseCount ps2 = inUseCount pre + inUseCount suf := by
        rw [hps2, inUseCount_append, inUseCount_cons]
        rw [if_neg (show ¬(({ x with inUse := false } : PoolWrapper).inUse = true) by simp)]
        omega
      omega

/-- A `close_connection` call for a borrowed handle preserves the pool
invariant. -/
theorem poolStep_close_inv (maxC perLimit : Nat) (s : PoolState) (wid : Nat)
    (borrowed : ∃ w ∈ s.pools, w.wid = wid ∧ w.inUse = true)
    (hinv : PoolInv maxC perLimit s) :
    PoolInv maxC perLimit (poolStep perLimit s (.close wid)) := by
  obtain ⟨hnd, hkc, hsum⟩ := hinv
  obtain ⟨w, hwmem, hwid, htrue⟩ := borrowed
  rw [poolStep]
  cases hrem : removeFirst s.pools wid with
  | none => exact absurd hrem (removeFirst_isSome _ _ ⟨w, hwmem, hwid⟩)
  | some ps2 =>
    simp only [hrem]
    obtain ⟨pre, x, suf, hdec, hxwid, hps2⟩ := removeFirst_eq_some _ _ _ hrem
    have hxmem : x ∈ s.pools := by
      rw [hdec]
      exact List.mem_append_right _ (List.mem_cons_self _ _)
    have hxw : x = w := uniqueWid s.pools hnd x w hxmem hwmem (by rw [hxwid, hwid])
    have hxuse : x.inUse = true := by rw [hxw]; exact htrue
    refine ⟨?_, ?_, ?_⟩
    · show (widsOf ps2).Nodup
      rw [hps2]
      have hsub : List.Sublist (widsOf (pre ++ suf)) (widsOf (pre ++ x :: suf)) := by
        rw [widsOf_append, widsOf_append]
        exact ((List.Sublist.refl _).cons _).append_left _
      exact (hdec ▸ hnd).sublist hsub
    · intro k
      show keyCount ps2 k ≤ perLimit
      have e1 : keyCount s.pools k
          = keyCount pre k + ((if poolKey x == k then 1 else 0) + keyCount suf k) := by
        rw [hdec, keyCount_append, keyCount_cons]
      have e2 : keyCount ps2 k = keyCount pre k + keyCount suf k := by
        rw [hps2, keyCount_append]
      have e3 := hkc k
      omega
    · show inUseCount ps2 + (s.avail + 1) ≤ maxC
      have h1 : inUseCount s.pools = inUseCount pre + (1 + inUseCount suf) := by
        rw [hdec, inUseCount_append, inUseCount_cons, hxuse]
        simp
      have h2 : inUseCount ps2 = inUseCount pre + inUseCount suf := by
        rw [hps2, inUseCount_append]
      omega

/-- `close_all` preserves the pool invariant. -/
theorem poolStep_closeAll_inv (maxC perLimit : Nat) (s : PoolState)
    (hinv : PoolInv maxC perLimit s) :
    PoolInv maxC perLimit (poolStep perLimit s .closeAll) := by
  obtain ⟨_, _, hsum⟩ := hinv
  refine ⟨by simp [poolStep, widsOf], ?_, ?_⟩
  · intro k
    show keyCount [] k ≤ perLimit
    simp [keyCount]
  · show inUseCount [] + s.avail ≤ maxC
    rw [inUseCount_nil]
    omega

/-- A well-formed call sequence preserves the pool invariant. -/
theorem poolRun_inv (maxC perLimit : Nat) (s : PoolState) (cmds : List PoolCmd)
    (hwf : WFCalls perLimit s cmds) (hinv : PoolInv maxC perLimit s) :
    PoolInv maxC perLimit (poolRun perLimit s cmds) := by
  induction hwf with
  | nil s => exact hinv
  | get s h p ho co newId cs fresh rest ih =>
    exact ih (poolStep_get_inv maxC perLimit s h p ho co newId fresh hinv)
  | release s wid cs borrowed rest ih =>
    exact ih (poolStep_release_inv maxC perLimit s wid borrowed hinv)
  | close s wid cs borrowed rest ih =>
    exact ih (poolStep_close_inv maxC perLimit s wid borrowed hinv)
  | closeAll s cs rest ih =>
    exact ih (poolStep_closeAll_inv maxC perLimit s hinv)

/-- C6 counterexample: three sequential connect/release rounds against
three distinct hosts with `ssh_max_connections = 2`.  Released sessions
stay open in the pool map, so the pool ends with three live sessions —
more than `ssh_max_connections`.  The semaphore bounds concurrent
borrowings, not live sessions. -/
theorem C6_live_sessions_counterexample :
    2 < (poolRun 5 (poolInit 2)
      [.get "a" 22 true true 1, .release 1, .get "b" 22 true true 2,
       .release 2, .get "c" 22 true true 3]).pools.length := by
  decide

/-- C6 (amended): along any well-formed completed call sequence (fresh
uuid wrapper ids; releases and closes name borrowed handles) the pool
never holds more than `ssh_per_server_limit` entries per `host:port` and
never has more than `ssh_max_connections` sessions borrowed at once; and
`release_connection` always releases exactly one semaphore slot, with an
unknown wrapper id leaving the pool map untouched. -/
theorem C6_pool_per_server_cap_and_release :
    ∀ (maxC perLimit : Nat) (cmds : List PoolCmd) (s : PoolState) (wid : Nat),
      (WFCalls perLimit (poolInit maxC) cmds →
        (∀ k, keyCount (poolRun perLimit (poolInit maxC) cmds).pools k ≤ perLimit)
        ∧ inUseCount (poolRun perLimit (poolInit maxC) cmds).pools ≤ maxC)
      ∧ (poolStep perLimit s (.release wid)).avail = s.avail + 1
      ∧ ((∀ w ∈ s.pools, w.wid ≠ wid) →
          (poolStep perLimit s (.release wid)).pools = s.pools) := by
  intro maxC perLimit cmds s wid
  refine ⟨?_, ?_, ?_⟩
  · intro hwf
    have hinit : PoolInv maxC perLimit (poolInit maxC) := by
      refine ⟨by simp [poolInit, widsOf], ?_, ?_⟩
      · intro k
        show keyCount [] k ≤ perLimit
        simp [keyCount]
      · show inUseCount [] + maxC ≤ maxC
        rw [inUseCount_nil]
        omega
    have hfin := poolRun_inv maxC perLimit (poolInit maxC) cmds hwf hinit
    exact ⟨hfin.2.1, by have := hfin.2.2; omega⟩
  · rw [poolStep]
    cases hrel : releaseFirst s.pools wid with
    | none => rfl
    | some ps2 => rfl
  · intro habs
    rw [poolStep, releaseFirst_none_of_absent s.pools wid habs]

/-- A successful `strptime` carries exactly the year it was given. -/
theorem strptimeTS_year (y : Nat) (ts : String) (dt : PyDateTime)
    (h : strptimeTS y ts = some dt) : dt.year = y := by
  unfold strptimeTS at h
  split at h
  · exact Option.noConfusion h
  · split at h
    · split at h
      · exact Option.noConfusion h
      · split at h
        · split at h
          · split at h
            · have := Option.some.inj h
              rw [← this]
            · exact Option.noConfusion h
          · exact Option.noConfusion h
        · exact Option.noConfusion h
    · exact Option.noConfusion h

/-- C4 counterexample: timestamp `Feb 29 00:00:00`, reference year 2024
(a leap year), `last_timestamp` 2024-12-31.  The initial parse succeeds
at 2024-02-29 and lies 306 > 300 days before the last timestamp, so the
claim requires the produced year to be 2023 — but `Feb 29` does not
exist in 2023, the re-parse raises `ValueError`, and the parser returns
the current time (year 2026 here) instead. -/
theorem C4_feb29_rollover_counterexample :
    strptimeTS 2024 "Feb 29 00:00:00" = some ⟨2024, 2, 29, 0, 0, 0⟩
    ∧ resolveYear ⟨2026, 10, 12, 0, 0, 0⟩ (some ⟨2024, 1, 1, 0, 0, 0⟩) = 2024
    ∧ 300 < timedeltaDays ⟨2024, 12, 31, 0, 0, 0⟩ ⟨2024, 2, 29, 0, 0, 0⟩
    ∧ (parseSyslogTimestamp ⟨2026, 10, 12, 0, 0, 0⟩ "Feb 29 00:00:00"
        (some ⟨2024, 1, 1, 0, 0, 0⟩) (some ⟨2024, 12, 31, 0, 0, 0⟩)).year = 2026 := by
  refine ⟨by decide, by decide, by decide, by decide⟩

/-- C4 (amended): the parser resolves the year to the reference year
(else the current year); when the timestamp parses under that year, the
result carries the resolved year minus one iff `last_timestamp` is set,
the initially parsed datetime is more than 300 days earlier than it,
and the timestamp re-parses under the decremented year; with no (or a
small enough) rollover the resolved-year datetime is returned; if the
rollover re-parse fails (Feb 29 of a leap resolved year) the parser
falls back to the current time, and likewise when the initial parse
fails. -/
theorem C4_year_rollover :
    ∀ (now : PyDateTime) (ts : String) (reference last : Option PyDateTime),
      (strptimeTS (resolveYear now reference) ts = none →
        parseSyslogTimestamp now ts reference last = now)
      ∧ (∀ dt, strptimeTS (resolveYear now reference) ts = some dt →
          dt.year = resolveYear now reference
          ∧ (last = none → parseSyslogTimestamp now ts reference last = dt)
          ∧ (∀ lt, last = some lt → timedeltaDays lt dt ≤ 300 →
              parseSyslogTimestamp now ts reference last = dt)
          ∧ (∀ lt, last = some lt → 300 < timedeltaDays lt dt →
              (∀ dt2, strptimeTS (resolveYear now reference - 1) ts = some dt2 →
                parseSyslogTimestamp now ts reference last = dt2
                ∧ dt2.year = resolveYear now reference - 1)
              ∧ (strptimeTS (resolveYear now reference - 1) ts = none →
                  parseSyslogTimestamp now ts reference last = now))) := by
  intro now ts reference last
  constructor
  · intro hnone
    simp [parseSyslogTimestamp, hnone]
  · intro dt hdt
    refine ⟨strptimeTS_year _ _ _ hdt, ?_, ?_, ?_⟩
    · intro hlast
      simp [parseSyslogTimestamp, hdt, hlast]
    · intro lt hlast hle
      simp only [parseSyslogTimestamp, hdt, hlast]
      rw [if_neg (by omega)]
    · intro lt hlast hgt
      constructor
      · intro dt2 hdt2
        refine ⟨?_, strptimeTS_year _ _ _ hdt2⟩
        simp only [parseSyslogTimestamp, hdt, hlast, hdt2]
        rw [if_pos hgt]
      · intro hnone2
        simp only [parseSyslogTimestamp, hdt, hlast, hnone2]
        rw [if_pos hgt]

/-- `getD` returns a list element or the default. -/
theorem getD_mem_or (l : List Char) (n : Nat) (d : Char) :
    l.getD n d ∈ l ∨ l.getD n d = d := by
  induction l generalizing n with
  | nil => right; cases n <;> rfl
  | cons x xs ih =>
    cases n with
    | zero => left; exact List.mem_cons_self _ _
    | succ m =>
      rcases ih m with h | h
      · left; exact List.mem_cons_of_mem _ h
      · right; exact h

/-- Every emitted base64 character is in the alphabet. -/
theorem b64CharOf_mem (n : Nat) : b64CharOf n ∈ b64Alphabet := by
  unfold b64CharOf
  rcases getD_mem_or b64Alphabet n 'A' with h | h
  · exact h
  · rw [h]; decide

/-- The base64 alphabet contains neither `:` nor `=`. -/
theorem b64Alphabet_no_colon_eq : ∀ c ∈ b64Alphabet, c ≠ ':' ∧ c ≠ '=' := by decide

/-- `b64encode` output is alphabet characters followed by at most two
padding characters. -/
theorem b64Encode_split (bs : List Nat) :
    ∃ body pad, b64Encode bs = body ++ List.replicate pad '='
      ∧ pad ≤ 2 ∧ ∀ c ∈ body, c ∈ b64Alphabet := by
  induction bs using b64Encode.induct with
  | case1 =>
    exact ⟨[], 0, rfl, by omega, by simp⟩
  | case2 a =>
    refine ⟨[b64CharOf (a / 4), b64CharOf (a % 4 * 16)], 2, rfl, by omega, ?_⟩
    intro c hc
    simp only [List.mem_cons, List.not_mem_nil, or_false] at hc
    rcases hc with rfl | rfl
    · exact b64CharOf_mem _
    · exact b64CharOf_mem _
  | case3 a b =>
    refine ⟨[b64CharOf (a / 4), b64CharOf (a % 4 * 16 + b / 16), b64CharOf (b % 16 * 4)],
      1, rfl, by omega, ?_⟩
    intro c hc
    simp only [List.mem_cons, List.not_mem_nil, or_false] at hc
    rcases hc with rfl | rfl | rfl
    · exact b64CharOf_mem _
    · exact b64CharOf_mem _
    · exact b64CharOf_mem _
  | case4 a b c rest ih =>
    obtain ⟨body, pad, heq, hpad, hmem⟩ := ih
    refine ⟨b64CharOf (a / 4) :: b64CharOf (a % 4 * 16 + b / 16)
      :: b64CharOf (b % 16 * 4 + c / 64) :: b64CharOf (c % 64) :: body, pad, ?_, hpad, ?_⟩
    · show b64Encode (a :: b :: c :: rest) = _
      rw [b64Encode, heq]
      rfl
    · intro x hx
      simp only [List.mem_cons] at hx
      rcases hx with rfl | rfl | rfl | rfl | hbody
      · exact b64CharOf_mem _
      · exact b64CharOf_mem _
      · exact b64CharOf_mem _
      · exact b64CharOf_mem _
      · exact hmem _ hbody

/-- `rstrip(b"=")` removes exactly the padding when the body is
padding-free. -/
theorem rstripEq_spec (body : List Char) (pad : Nat)
    (h : ∀ c ∈ body, c ≠ '=') :
    rstripEq (body ++ List.replicate pad '=') = body := by
  unfold rstripEq
  rw [List.reverse_append, List.reverse_replicate]
  have h1 : List.dropWhile (fun c => c == '=')
      (List.replicate pad '=' ++ body.reverse)
      = List.dropWhile (fun c => c == '=') body.reverse := by
    induction pad with
    | zero => simp
    | succ q ih =>
      rw [List.replicate_succ, List.cons_append, List.dropWhile_cons]
      rw [if_pos (by decide)]
      exact ih
  rw [h1]
  have h2 : List.dropWhile (fun c => c == '=') body.reverse = body.reverse := by
    cases hrev : body.reverse with
    | nil => rfl
    | cons c cs =>
      rw [List.dropWhile_cons]
      rw [if_neg]
      have hcmem : c ∈ body := by
        rw [← List.mem_reverse, hrev]
        exact List.mem_cons_self _ _
      simpa using h c hcmem
  rw [h2, List.reverse_reverse]

/-- Alphabet-only characters contain no colon. -/
theorem count_colon_alpha (body : List Char) (h : ∀ c ∈ body, c ∈ b64Alphabet) :
    body.count ':' = 0 :=
  List.count_eq_zero.mpr (fun hmem => (b64Alphabet_no_colon_eq _ (h _ hmem)).1 rfl)

/-- One MD5 round preserves the state length. -/
theorem md5Round_length (m s : List Nat) (i : Nat) :
    (md5Round m s i).length = s.length := by
  unfold md5Round
  split <;> rfl

/-- The 64 MD5 rounds preserve the state length. -/
theorem md5_rounds_length (m : List Nat) :
    ∀ (l : List Nat) (st : List Nat), (l.foldl (md5Round m) st).length = st.length := by
  intro l
  induction l with
  | nil => intro st; rfl
  | cons x xs ih =>
    intro st
    rw [List.foldl_cons, ih, md5Round_length]

/-- MD5 block compression preserves the four-word state. -/
theorem md5Chunk_length (st chunk : List Nat) (h : st.length = 4) :
    (md5Chunk st chunk).length = 4 := by
  unfold md5Chunk
  rw [List.length_map, List.length_zip, md5_rounds_length, h]
  simp

/-- Folding MD5 over all blocks preserves the four-word state. -/
theorem md5_foldl_length (chunks : List (List Nat)) :
    ∀ st : List Nat, st.length = 4 → (chunks.foldl md5Chunk st).length = 4 := by
  induction chunks with
  | nil => intro st h; exact h
  | cons c cs ih =>
    intro st h
    rw [List.foldl_cons]
    exact ih _ (md5Chunk_length st c h)

/-- The MD5 digest is sixteen bytes. -/
theorem md5_length (msg : List Nat) : (md5 msg).length = 16 := by
  unfold md5
  have hst := md5_foldl_length (chunks64 (hashPad (toBytesLE 8) msg)) md5Init rfl
  rcases hfold : (chunks64 (hashPad (toBytesLE 8) msg)).foldl md5Chunk md5Init with
    _ | ⟨a, _ | ⟨b, _ | ⟨c, _ | ⟨d, _ | ⟨e, t⟩⟩⟩⟩⟩ <;>
    rw [hfold] at hst <;> simp at hst
  simp [toBytesLE]

/-- Every value `toBytesLE` emits is a byte. -/
theorem toBytesLE_lt (k n : Nat) : ∀ x ∈ toBytesLE k n, x < 256 := by
  intro x hx
  obtain ⟨i, _, rfl⟩ := List.mem_map.mp hx
  exact Nat.mod_lt _ (by omega)

/-- Every value the MD5 digest emits is a byte. -/
theorem md5_bytes_lt (msg : List Nat) : ∀ x ∈ md5 msg, x < 256 := by
  intro x hx
  unfold md5 at hx
  rw [List.mem_flatten] at hx
  obtain ⟨l, hl, hxl⟩ := hx
  obtain ⟨y, _, rfl⟩ := List.mem_map.mp hl
  exact toBytesLE_lt 4 y x hxl

/-- Lowercase hex digits are not colons. -/
theorem hexChar_ne_colon (n : Nat) (h : n < 16) : hexChar n ≠ ':' := by
  interval_cases n <;> decide

/-- A byte's hex pair contains no colon. -/
theorem byteToHexChars_no_colon (b : Nat) (h : b < 256) :
    ∀ c ∈ byteToHexChars b, c ≠ ':' := by
  intro c hc
  unfold byteToHexChars at hc
  simp only [List.mem_cons, List.not_mem_nil, or_false] at hc
  rcases hc with rfl | rfl
  · exact hexChar_ne_colon _ (by omega)
  · exact hexChar_ne_colon _ (by omega)

/-- `":".join` of colon-free pieces has one colon per separator. -/
theorem colonJoin_count (ps : List (List Char))
    (h : ∀ p ∈ ps, ∀ c ∈ p, c ≠ ':') :
    (colonJoin ps).count ':' = ps.length - 1 := by
  induction ps with
  | nil => rfl
  | cons x xs ih =>
    cases xs with
    | nil =>
      show x.count ':' = 0
      exact List.count_eq_zero.mpr (fun hmem => h x (List.mem_cons_self _ _) _ hmem rfl)
    | cons y ys =>
      show (x ++ ':' :: colonJoin (y :: ys)).count ':' = _
      rw [List.count_append, List.count_cons]
      rw [List.count_eq_zero.mpr (fun hmem => h x (List.mem_cons_self _ _) _ hmem rfl)]
      rw [ih (fun p hp => h p (List.mem_cons_of_mem _ hp))]
      simp [List.length_cons]

set_option maxRecDepth 100000 in
set_option maxHeartbeats 4000000 in
/-- C2: for every input accepted by one of the three key formats, the
SHA-256 fingerprint is `"SHA256:"` plus the unpadded base64 of the
digest of the decoded key bytes — so it contains exactly one `:` and no
`=` — the MD5 fingerprint is `"MD5:"` plus the colon-joined hex pairs of
the 16-byte digest (16 colons in all), both functions are deterministic,
and extraction or decode failure yields `none` from both (the embedding
is total, so no exception can escape). -/
theorem C2_fingerprint_format :
    ∀ (s : String),
      (∀ r, calculateSha256Fingerprint s = some r →
        ∃ keyB64 keyBytes, extractKeyData s = some keyB64
          ∧ b64Decode keyB64 = some keyBytes
          ∧ r = "SHA256:" ++ String.mk (rstripEq (b64Encode (sha256 keyBytes)))
          ∧ r.data.count ':' = 1
          ∧ '=' ∉ r.data)
      ∧ (∀ r, calculateMd5Fingerprint s = some r →
          ∃ keyB64 keyBytes, extractKeyData s = some keyB64
            ∧ b64Decode keyB64 = some keyBytes
            ∧ r = "MD5:" ++ String.mk (colonJoin ((md5 keyBytes).map byteToHexChars))
            ∧ (md5 keyBytes).length = 16
            ∧ r.data.count ':' = 16)
      ∧ (extractKeyData s = none →
          calculateSha256Fingerprint s = none ∧ calculateMd5Fingerprint s = none)
      ∧ (∀ keyB64, extractKeyData s = some keyB64 → b64Decode keyB64 = none →
          calculateSha256Fingerprint s = none ∧ calculateMd5Fingerprint s = none)
      ∧ (∀ s2, s = s2 →
          calculateSha256Fingerprint s = calculateSha256Fingerprint s2
          ∧ calculateMd5Fingerprint s = calculateMd5Fingerprint s2)
      ∧ calculateSha256Fingerprint "ssh-rsa AAAA x"
          = some ("SHA256:" ++ String.mk (rstripEq (b64Encode (sha256 [0, 0, 0])))) := by
  intro s
  refine ⟨?_, ?_, ?_, ?_, ?_, by decide⟩
  · intro r hr
    cases hext : extractKeyData s with
    | none =>
      simp only [calculateSha256Fingerprint, hext] at hr
      exact Option.noConfusion hr
    | some keyB64 =>
      simp only [calculateSha256Fingerprint, hext] at hr
      by_cases hempty : keyB64 = ""
      · rw [if_pos hempty] at hr; exact Option.noConfusion hr
      · rw [if_neg hempty] at hr
        cases hdec : b64Decode keyB64 with
        | none => simp only [hdec] at hr; exact Option.noConfusion hr
        | some keyBytes =>
          simp only [hdec] at hr
          have hreq := (Option.some.inj hr).symm
          obtain ⟨bd, pad, henc, _, hmem⟩ := b64Encode_split (sha256 keyBytes)
          have hbd : rstripEq (b64Encode (sha256 keyBytes)) = bd := by
            rw [henc]
            exact rstripEq_spec bd pad
              (fun c hc => (b64Alphabet_no_colon_eq c (hmem c hc)).2)
          have hdata : r.data = "SHA256:".data ++ bd := by
            rw [hreq, hbd]
            rfl
          refine ⟨keyB64, keyBytes, rfl, hdec, hreq, ?_, ?_⟩
          · rw [hdata, List.count_append]
            rw [count_colon_alpha bd hmem]
            decide
          · rw [hdata]
            intro hcmem
            rcases List.mem_append.mp hcmem with h | h
            · revert h; decide
            · exact (b64Alphabet_no_colon_eq _ (hmem _ h)).2 rfl
  · intro r hr
    cases hext : extractKeyData s with
    | none =>
      simp only [calculateMd5Fingerprint, hext] at hr
      exact Option.noConfusion hr
    | some keyB64 =>
      simp only [calculateMd5Fingerprint, hext] at hr
      by_cases hempty : keyB64 = ""
      · rw [if_pos hempty] at hr; exact Option.noConfusion hr
      · rw [if_neg hempty] at hr
        cases hdec : b64Decode keyB64 with
        | none => simp only [hdec] at hr; exact Option.noConfusion hr
        | some keyBytes =>
          simp only [hdec] at hr
          have hreq := (Option.some.inj hr).symm
          have hpieces : ∀ p ∈ (md5 keyBytes).map byteToHexChars, ∀ c ∈ p, c ≠ ':' := by
            intro p hp
            obtain ⟨b, hb, rfl⟩ := List.mem_map.mp hp
            exact byteToHexChars_no_colon b (md5_bytes_lt keyBytes b hb)
          have hjoin : (colonJoin ((md5 keyBytes).map byteToHexChars)).count ':' = 15 := by
            rw [colonJoin_count _ hpieces, List.length_map, md5_length]
          refine ⟨keyB64, keyBytes, rfl, hdec, hreq, md5_length keyBytes, ?_⟩
          have hdata : r.data
              = "MD5:".data ++ colonJoin ((md5 keyBytes).map byteToHexChars) := by
            rw [hreq]
            rfl
          rw [hdata, List.count_append, hjoin]
          decide
  · intro hext
    constructor
    · simp only [calculateSha256Fingerprint, hext]
    · simp only [calculateMd5Fingerprint, hext]
  · intro keyB64 hext hdec
    by_cases hempty : keyB64 = ""
    · constructor
      · simp only [calculateSha256Fingerprint, hext]
        rw [if_pos hempty]
      · simp only [calculateMd5Fingerprint, hext]
        rw [if_pos hempty]
    · constructor
      · simp only [calculateSha256Fingerprint, hext]
        rw [if_neg hempty]
        simp only [hdec]
      · simp only [calculateMd5Fingerprint, hext]
        rw [if_neg hempty]
        simp only [hdec]
  · intro s2 heq
    rw [heq]
    exact ⟨rfl, rfl⟩

/-! ### Maximal-munch lemmas for the Linux sshd line shapes -/

/-- A list whose head satisfies `head?` membership is inhabited by it. -/
theorem mem_of_headEq (l : List Char) (c : Char) (h : l.head? = some c) : c ∈ l := by
  cases l with
  | nil => cases h
  | cons x xs =>
    have hx : x = c := by
      have : some x = some c := h
      exact Option.some.inj this
    rw [← hx]
    exact List.mem_cons_self _ _

/-- An append whose left part is nonempty is nonempty. -/
theorem append_ne_nil_of_left (l r : List Char) (h : l ≠ []) : l ++ r ≠ [] := by
  cases l with
  | nil => exact absurd rfl h
  | cons x xs => simp

/-- Contraposition on boolean character classes. -/
theorem bool_contra {p q : Char → Bool} (H : ∀ c, p c = true → q c = false) :
    ∀ c, q c = true → p c = false := by
  intro c hq
  cases hp : p c with
  | false => rfl
  | true =>
    have := H c hp
    rw [this] at hq
    exact Bool.noConfusion hq

/-- The Python whitespace class is the six listed characters. -/
theorem pyIsSpace_cases (c : Char) (h : pyIsSpace c = true) :
    c = ' ' ∨ c = '\t' ∨ c = '\n' ∨ c = '\r' ∨ c = Char.ofNat 11 ∨ c = Char.ofNat 12 := by
  simp only [pyIsSpace, Bool.or_eq_true, beq_iff_eq] at h
  tauto

/-- Whitespace is not a word character. -/
theorem sp_not_word (c : Char) (h : pyIsSpace c = true) : isWordChar c = false := by
  rcases pyIsSpace_cases c h with rfl | rfl | rfl | rfl | rfl | rfl <;> decide

/-- Whitespace is not a digit. -/
theorem sp_not_digit (c : Char) (h : pyIsSpace c = true) : Char.isDigit c = false := by
  rcases pyIsSpace_cases c h with rfl | rfl | rfl | rfl | rfl | rfl <;> decide

/-- Whitespace is not in the time-of-day class. -/
theorem sp_not_digitColon (c : Char) (h : pyIsSpace c = true) : isDigitColon c = false := by
  rcases pyIsSpace_cases c h with rfl | rfl | rfl | rfl | rfl | rfl <;> decide

/-- Whitespace is not in the dotted-quad class. -/
theorem sp_not_digitDot (c : Char) (h : pyIsSpace c = true) : isDigitDot c = false := by
  rcases pyIsSpace_cases c h with rfl | rfl | rfl | rfl | rfl | rfl <;> decide

/-- Whitespace is not a non-space character. -/
theorem sp_not_nonSpace (c : Char) (h : pyIsSpace c = true) : isNonSpace c = false := by
  simp [isNonSpace, h]

/-- A word character is not whitespace. -/
theorem word_not_sp (c : Char) (h : isWordChar c = true) : pyIsSpace c = false :=
  bool_contra sp_not_word c h

/-- A digit is not whitespace. -/
theorem digit_not_sp (c : Char) (h : Char.isDigit c = true) : pyIsSpace c = false :=
  bool_contra sp_not_digit c h

/-- A time-of-day character is not whitespace. -/
theorem digitColon_not_sp (c : Char) (h : isDigitColon c = true) : pyIsSpace c = false :=
  bool_contra sp_not_digitColon c h

/-- A dotted-quad character is not whitespace. -/
theorem digitDot_not_sp (c : Char) (h : isDigitDot c = true) : pyIsSpace c = false :=
  bool_contra sp_not_digitDot c h

/-- A non-space character is not whitespace. -/
theorem nonSpace_not_sp (c : Char) (h : isNonSpace c = true) : pyIsSpace c = false := by
  simp only [isNonSpace, Bool.not_eq_true'] at h
  exact h

/-- Greedy `takeWhile` stops exactly at the end of a token of its class
when the next character falls outside the class. -/
theorem takeWhile_tok (p : Char → Bool) (tok rest : List Char)
    (h1 : ∀ c ∈ tok, p c = true)
    (h2 : ∀ c, rest.head? = some c → p c = false) :
    (tok ++ rest).takeWhile p = tok := by
  induction tok with
  | nil =>
    rw [List.nil_append]
    cases rest with
    | nil => rfl
    | cons c t => simp only [List.takeWhile, h2 c rfl]
  | cons x xs ih =>
    rw [List.cons_append]
    simp only [List.takeWhile, h1 x (List.mem_cons_self _ _)]
    rw [ih (fun c hc => h1 c (List.mem_cons_of_mem _ hc))]

/-- `class+` munches exactly a nonempty token of its class when the
next character falls outside the class. -/
theorem munch1_tok (p : Char → Bool) (tok rest : List Char) (h0 : tok ≠ [])
    (h1 : ∀ c ∈ tok, p c = true)
    (h2 : ∀ c, rest.head? = some c → p c = false) :
    munch1 p (tok ++ rest) = some (tok, rest) := by
  cases tok with
  | nil => exact absurd rfl h0
  | cons x xs =>
    have htw : ((x :: xs) ++ rest).takeWhile p = x :: xs :=
      takeWhile_tok p (x :: xs) rest h1 h2
    simp only [munch1, htw]
    rw [List.drop_left]

/-- `class+` at the end of the input munches the whole remaining token. -/
theorem munch1_all (p : Char → Bool) (tok : List Char) (h0 : tok ≠ [])
    (h1 : ∀ c ∈ tok, p c = true) :
    munch1 p tok = some (tok, []) := by
  have h := munch1_tok p tok [] h0 h1 (fun c hc => nomatch hc)
  rw [List.append_nil] at h
  exact h

/-- A literal consumes exactly itself. -/
theorem lit_eq_some (l : List Char) :
    ∀ (cs r : List Char), lit l cs = some r ↔ cs = l ++ r := by
  induction l with
  | nil => intro cs r; simp [lit]
  | cons x xs ih =>
    intro cs r
    cases cs with
    | nil => simp [lit]
    | cons c t =>
      simp only [lit, List.cons_append]
      by_cases hc : c = x
      · subst hc
        rw [if_pos rfl, ih t r]
        simp
      · rw [if_neg hc]
        simp [hc]

/-- A literal matches itself followed by anything. -/
theorem lit_self (l rest : List Char) : lit l (l ++ rest) = some rest := by
  rw [lit_eq_some]

/-- The head of a token-led append lies in the token's class. -/
theorem head_class (p : Char → Bool) (tok rest : List Char) (h0 : tok ≠ [])
    (h1 : ∀ c ∈ tok, p c = true) :
    ∀ c, (tok ++ rest).head? = some c → p c = true := by
  intro c hc
  cases tok with
  | nil => exact absurd rfl h0
  | cons x xs =>
    have hx : x = c := Option.some.inj hc
    rw [← hx]
    exact h1 x (List.mem_cons_self _ _)

/-- The head of a token-led append falls outside any class disjoint from
the token's class. -/
theorem head_fails (p q : Char → Bool) (tok rest : List Char) (h0 : tok ≠ [])
    (h1 : ∀ c ∈ tok, q c = true) (hpq : ∀ c, q c = true → p c = false) :
    ∀ c, (tok ++ rest).head? = some c → p c = false :=
  fun c hc => hpq c (head_class q tok rest h0 h1 c hc)

/-- The head of a literal-led append falls outside any class its first
character fails. -/
theorem head_fails_of_head (p : Char → Bool) (l rest : List Char) (x : Char)
    (hx : l.head? = some x) (hpx : p x = false) :
    ∀ c, (l ++ rest).head? = some c → p c = false := by
  intro c hc
  cases l with
  | nil => cases hx
  | cons y ys =>
    have h1 : y = x := Option.some.inj hx
    have h2 : y = c := Option.some.inj hc
    rw [← h2, h1]
    exact hpx

/-- The ip alternation resolves on the dotted branch for a dotted-quad
token followed by whitespace. -/
theorem munchIp_tok (ip rest : List Char) (h0 : ip ≠ [])
    (h1 : ∀ c ∈ ip, isDigitDot c = true)
    (h2 : ∀ c, rest.head? = some c → pyIsSpace c = true)
    (h3 : rest ≠ []) :
    munchIp (ip ++ rest) = some (ip, rest) := by
  have htw : (ip ++ rest).takeWhile isDigitDot = ip :=
    takeWhile_tok _ _ _ h1 (fun c hc => sp_not_digitDot c (h2 c hc))
  have hipe : ip.isEmpty = false := by
    cases ip with
    | nil => exact absurd rfl h0
    | cons a b => rfl
  have hnext : nextIsSpace rest = true := by
    cases rest with
    | nil => exact absurd rfl h3
    | cons c t => exact h2 c rfl
  simp [munchIp, htw, List.drop_left, hipe, hnext]

/-- The method alternation matches each of its three literals. -/
theorem munchMethod_tok (m rest : List Char)
    (hm : m = "publickey".toList ∨ m = "password".toList
      ∨ m = "keyboard-interactive".toList) :
    munchMethod (m ++ rest) = some (m, rest) := by
  rcases hm with rfl | rfl | rfl
  · simp only [munchMethod, lit_self]
  · have h1 : lit ("publickey".toList) ("password".toList ++ rest) = none := rfl
    simp only [munchMethod, h1, lit_self]
  · have h1 : lit ("publickey".toList) ("keyboard-interactive".toList ++ rest) = none := rfl
    have h2 : lit ("password".toList) ("keyboard-interactive".toList ++ rest) = none := rfl
    simp only [munchMethod, h1, h2, lit_self]

/-- The optional `invalid user` literal cannot fire on a non-space
username other than `invalid` followed by whitespace. -/
theorem lit_invalid_user_fail (user tail : List Char)
    (hu : ∀ c ∈ user, isNonSpace c = true)
    (hne : user ≠ "invalid".toList)
    (h2 : ∀ c, tail.head? = some c → pyIsSpace c = true)
    (h3 : tail ≠ []) :
    lit ("invalid user".toList) (user ++ tail) = none := by
  cases hres : lit ("invalid user".toList) (user ++ tail) with
  | none => rfl
  | some ru =>
    exfalso
    rw [lit_eq_some] at hres
    have hsplit : ("invalid user".toList : List Char)
        = "invalid".toList ++ (' ' :: "user".toList) := rfl
    rw [hsplit, List.append_assoc] at hres
    have hL : (user ++ tail).takeWhile isNonSpace = user := by
      cases tail with
      | nil => exact absurd rfl h3
      | cons c t =>
        refine takeWhile_tok _ _ _ hu (fun d hd => ?_)
        have hsp := h2 d hd
        simp [isNonSpace, hsp]
    have hstep : (' ' :: "user".toList) ++ ru = ' ' :: ("user".toList ++ ru) := rfl
    have hR : ("invalid".toList ++ ((' ' :: "user".toList) ++ ru)).takeWhile isNonSpace
        = "invalid".toList := by
      rw [hstep]
      refine takeWhile_tok _ _ _ (by decide) (fun d hd => ?_)
      have hd2 : ' ' = d := Option.some.inj hd
      rw [← hd2]
      decide
    rw [hres, hR] at hL
    exact hne hL.symm

/-- A list containing the needle as an inner segment passes the
substring test. -/
theorem isSubstring_of_append (n a b : List Char) :
    isSubstring n (a ++ (n ++ b)) = true := by
  unfold isSubstring
  rw [List.any_eq_true]
  refine ⟨n ++ b, ?_, ?_⟩
  · rw [List.mem_tails]
    exact List.suffix_append a (n ++ b)
  · exact List.isPrefixOf_iff_prefix.mpr (List.prefix_append _ _)

/-- Stripping leaves a list alone when its head is not whitespace. -/
theorem dropWhile_id_of_head (p : Char → Bool) (l : List Char)
    (h : ∀ c, l.head? = some c → p c = false) : l.dropWhile p = l := by
  cases l with
  | nil => rfl
  | cons c t =>
    rw [List.dropWhile_cons, h c rfl]
    rfl

/-- Python `strip()` is the identity on a string with non-space first
and last characters. -/
theorem pyStrip_mk (cs : List Char)
    (h1 : ∀ c, cs.head? = some c → pyIsSpace c = false)
    (h2 : ∀ c, cs.reverse.head? = some c → pyIsSpace c = false) :
    pyStrip (String.mk cs) = String.mk cs := by
  have hts : (String.mk cs).toList = cs := rfl
  unfold pyStrip
  rw [hts, dropWhile_id_of_head _ _ h1, dropWhile_id_of_head _ _ h2,
    List.reverse_reverse]

/-- A line ending in a non-space token ends in a non-space character. -/
theorem rev_head_not_sp (L fp : List Char) (hfp : tokenOf isNonSpace fp)
    (hL : L.getLast? = fp.getLast?) :
    ∀ c, L.reverse.head? = some c → pyIsSpace c = false := by
  intro c hc
  rw [List.head?_reverse, hL, ← List.head?_reverse] at hc
  exact nonSpace_not_sp c (hfp.2 c (List.mem_reverse.mp (mem_of_headEq _ _ hc)))

/-- The shared head of the four Linux patterns matches a
month/day/time/host/pid prefix and captures the timestamp exactly. -/
theorem matchHead_spec (mon sp1 day sp2 tod sp3 host sp4 pid sp5 rest : List Char)
    (hmon : tokenOf isWordChar mon) (hsp1 : tokenOf pyIsSpace sp1)
    (hday : tokenOf Char.isDigit day) (hsp2 : tokenOf pyIsSpace sp2)
    (htod : tokenOf isDigitColon tod) (hsp3 : tokenOf pyIsSpace sp3)
    (hhost : tokenOf isNonSpace host) (hsp4 : tokenOf pyIsSpace sp4)
    (hpid : tokenOf Char.isDigit pid) (hsp5 : tokenOf pyIsSpace sp5)
    (hrest : ∀ c, rest.head? = some c → pyIsSpace c = false) :
    matchHead (mon ++ sp1 ++ day ++ sp2 ++ tod ++ sp3 ++ host ++ sp4
        ++ "sshd[".toList ++ pid ++ "]:".toList ++ sp5 ++ rest)
      = some (mon ++ sp1 ++ day ++ sp2 ++ tod, host, pid, rest) := by
  have e12 : munch1 pyIsSpace (sp5 ++ rest) = some (sp5, rest) :=
    munch1_tok _ _ _ hsp5.1 hsp5.2 hrest
  have e11 : lit ("]:".toList) ("]:".toList ++ (sp5 ++ rest)) = some (sp5 ++ rest) :=
    lit_self _ _
  have e10 : munch1 Char.isDigit (pid ++ ("]:".toList ++ (sp5 ++ rest)))
      = some (pid, "]:".toList ++ (sp5 ++ rest)) :=
    munch1_tok _ _ _ hpid.1 hpid.2 (head_fails_of_head _ _ _ ']' rfl (by decide))
  have e9 : lit ("sshd[".toList)
      ("sshd[".toList ++ (pid ++ ("]:".toList ++ (sp5 ++ rest))))
      = some (pid ++ ("]:".toList ++ (sp5 ++ rest))) :=
    lit_self _ _
  have e8 : munch1 pyIsSpace
      (sp4 ++ ("sshd[".toList ++ (pid ++ ("]:".toList ++ (sp5 ++ rest)))))
      = some (sp4, "sshd[".toList ++ (pid ++ ("]:".toList ++ (sp5 ++ rest)))) :=
    munch1_tok _ _ _ hsp4.1 hsp4.2 (head_fails_of_head _ _ _ 's' rfl (by decide))
  have e7 : munch1 isNonSpace
      (host ++ (sp4 ++ ("sshd[".toList ++ (pid ++ ("]:".toList ++ (sp5 ++ rest))))))
      = some (host, sp4 ++ ("sshd[".toList ++ (pid ++ ("]:".toList ++ (sp5 ++ rest))))) :=
    munch1_tok _ _ _ hhost.1 hhost.2 (head_fails _ _ _ _ hsp4.1 hsp4.2 sp_not_nonSpace)
  have e6 : munch1 pyIsSpace
      (sp3 ++ (host ++ (sp4 ++ ("sshd[".toList ++ (pid ++ ("]:".toList ++ (sp5 ++ rest)))))))
      = some (sp3, host ++ (sp4 ++ ("sshd[".toList ++ (pid ++ ("]:".toList ++ (sp5 ++ rest)))))) :=
    munch1_tok _ _ _ hsp3.1 hsp3.2 (head_fails _ _ _ _ hhost.1 hhost.2 nonSpace_not_sp)
  have e5 : munch1 isDigitColon
      (tod ++ (sp3 ++ (host ++ (sp4 ++ ("sshd[".toList
        ++ (pid ++ ("]:".toList ++ (sp5 ++ rest))))))))
      = some (tod, sp3 ++ (host ++ (sp4 ++ ("sshd[".toList
        ++ (pid ++ ("]:".toList ++ (sp5 ++ rest))))))) :=
    munch1_tok _ _ _ htod.1 htod.2 (head_fails _ _ _ _ hsp3.1 hsp3.2 sp_not_digitColon)
  have e4 : munch1 pyIsSpace
      (sp2 ++ (tod ++ (sp3 ++ (host ++ (sp4 ++ ("sshd[".toList
        ++ (pid ++ ("]:".toList ++ (sp5 ++ rest)))))))))
      = some (sp2, tod ++ (sp3 ++ (host ++ (sp4 ++ ("sshd[".toList
        ++ (pid ++ ("]:".toList ++ (sp5 ++ rest)))))))) :=
    munch1_tok _ _ _ hsp2.1 hsp2.2 (head_fails _ _ _ _ htod.1 htod.2 digitColon_not_sp)
  have e3 : munch1 Char.isDigit
      (day ++ (sp2 ++ (tod ++ (sp3 ++ (host ++ (sp4 ++ ("sshd[".toList
        ++ (pid ++ ("]:".toList ++ (sp5 ++ rest))))))))))
      = some (day, sp2 ++ (tod ++ (sp3 ++ (host ++ (sp4 ++ ("sshd[".toList
        ++ (pid ++ ("]:".toList ++ (sp5 ++ rest))))))))) :=
    munch1_tok _ _ _ hday.1 hday.2 (head_fails _ _ _ _ hsp2.1 hsp2.2 sp_not_digit)
  have e2 : munch1 pyIsSpace
      (sp1 ++ (day ++ (sp2 ++ (tod ++ (sp3 ++ (host ++ (sp4 ++ ("sshd[".toList
        ++ (pid ++ ("]:".toList ++ (sp5 ++ rest)))))))))))
      = some (sp1, day ++ (sp2 ++ (tod ++ (sp3 ++ (host ++ (sp4 ++ ("sshd[".toList
        ++ (pid ++ ("]:".toList ++ (sp5 ++ rest)))))))))) :=
    munch1_tok _ _ _ hsp1.1 hsp1.2 (head_fails _ _ _ _ hday.1 hday.2 digit_not_sp)
  have e1 : munch1 isWordChar
      (mon ++ (sp1 ++ (day ++ (sp2 ++ (tod ++ (sp3 ++ (host ++ (sp4 ++ ("sshd[".toList
        ++ (pid ++ ("]:".toList ++ (sp5 ++ rest))))))))))))
      = some (mon, sp1 ++ (day ++ (sp2 ++ (tod ++ (sp3 ++ (host ++ (sp4 ++ ("sshd[".toList
        ++ (pid ++ ("]:".toList ++ (sp5 ++ rest))))))))))) :=
    munch1_tok _ _ _ hmon.1 hmon.2 (head_fails _ _ _ _ hsp1.1 hsp1.2 sp_not_word)
  simp only [List.append_assoc, matchHead, e1, e2, e3, e4, e5, e6, e7, e8, e9, e10,
    e11, e12]

/-- The optional ssh2 tail captures exactly the final non-space token as
the fingerprint. -/
theorem matchSsh2Tail_spec (sp14 alg sp15 fp : List Char)
    (hsp14 : tokenOf pyIsSpace sp14) (halg : tokenOf isNonSpace alg)
    (hsp15 : tokenOf pyIsSpace sp15) (hfp : tokenOf isNonSpace fp) :
    matchSsh2Tail ("ssh2:".toList ++ sp14 ++ alg ++ sp15 ++ fp) = some fp := by
  have e1 : lit ("ssh2:".toList) ("ssh2:".toList ++ (sp14 ++ (alg ++ (sp15 ++ fp))))
      = some (sp14 ++ (alg ++ (sp15 ++ fp))) := lit_self _ _
  have e2 : munch1 pyIsSpace (sp14 ++ (alg ++ (sp15 ++ fp)))
      = some (sp14, alg ++ (sp15 ++ fp)) :=
    munch1_tok _ _ _ hsp14.1 hsp14.2 (head_fails _ _ _ _ halg.1 halg.2 nonSpace_not_sp)
  have e3 : munch1 isNonSpace (alg ++ (sp15 ++ fp)) = some (alg, sp15 ++ fp) :=
    munch1_tok _ _ _ halg.1 halg.2 (head_fails _ _ _ _ hsp15.1 hsp15.2 sp_not_nonSpace)
  have e4 : munch1 pyIsSpace (sp15 ++ fp) = some (sp15, fp) :=
    munch1_tok _ _ _ hsp15.1 hsp15.2
      (fun c hc => nonSpace_not_sp c (hfp.2 c (mem_of_headEq _ _ hc)))
  have e5 : munch1 isNonSpace fp = some (fp, []) := munch1_all _ _ hfp.1 hfp.2
  simp only [List.append_assoc, matchSsh2Tail, e1, e2, e3, e4, e5]

/-- The common auth body of the Accepted and Failed patterns binds
method, username, ip and port to the respective tokens and hands the
remainder to the optional ssh2-tail matcher; for the Failed shape the
optional `invalid user` group cannot fire on a username other than
`invalid`. -/
theorem matchAuthBody_spec (inv : Bool)
    (ts host pid sp6 mtok sp7 sp8 user sp9 sp10 ip sp11 sp12 port sp13 tail : List Char)
    (hm : mtok = "publickey".toList ∨ mtok = "password".toList
      ∨ mtok = "keyboard-interactive".toList)
    (hsp6 : tokenOf pyIsSpace sp6) (hsp7 : tokenOf pyIsSpace sp7)
    (hsp8 : tokenOf pyIsSpace sp8) (huser : tokenOf isNonSpace user)
    (hui : user ≠ "invalid".toList)
    (hsp9 : tokenOf pyIsSpace sp9) (hsp10 : tokenOf pyIsSpace sp10)
    (hip : tokenOf isDigitDot ip) (hsp11 : tokenOf pyIsSpace sp11)
    (hsp12 : tokenOf pyIsSpace sp12) (hport : tokenOf Char.isDigit port)
    (hsp13 : tokenOf pyIsSpace sp13)
    (htail : ∀ c, tail.head? = some c → pyIsSpace c = false) :
    matchAuthBody inv ts host pid (sp6 ++ mtok ++ sp7 ++ "for".toList ++ sp8 ++ user
        ++ sp9 ++ "from".toList ++ sp10 ++ ip ++ sp11 ++ "port".toList ++ sp12
        ++ port ++ sp13 ++ tail)
      = some { timestamp := ts, hostname := host, pid := pid, method := some mtok,
               username := some user, ip := ip, port := some port,
               fingerprint := matchSsh2Tail tail } := by
  have hmt : mtok ≠ [] ∧ ∀ c ∈ mtok, isNonSpace c = true := by
    rcases hm with rfl | rfl | rfl
    · exact ⟨by decide, by decide⟩
    · exact ⟨by decide, by decide⟩
    · exact ⟨by decide, by decide⟩
  have e15 : munch1 pyIsSpace (sp13 ++ tail) = some (sp13, tail) :=
    munch1_tok _ _ _ hsp13.1 hsp13.2 htail
  have e14 : munch1 Char.isDigit (port ++ (sp13 ++ tail))
      = some (port, sp13 ++ tail) :=
    munch1_tok _ _ _ hport.1 hport.2 (head_fails _ _ _ _ hsp13.1 hsp13.2 sp_not_digit)
  have e13 : munch1 pyIsSpace (sp12 ++ (port ++ (sp13 ++ tail)))
      = some (sp12, port ++ (sp13 ++ tail)) :=
    munch1_tok _ _ _ hsp12.1 hsp12.2 (head_fails _ _ _ _ hport.1 hport.2 digit_not_sp)
  have e12 : lit ("port".toList)
      ("port".toList ++ (sp12 ++ (port ++ (sp13 ++ tail))))
      = some (sp12 ++ (port ++ (sp13 ++ tail))) := lit_self _ _
  have e11 : munch1 pyIsSpace
      (sp11 ++ ("port".toList ++ (sp12 ++ (port ++ (sp13 ++ tail)))))
      = some (sp11, "port".toList ++ (sp12 ++ (port ++ (sp13 ++ tail)))) :=
    munch1_tok _ _ _ hsp11.1 hsp11.2 (head_fails_of_head _ _ _ 'p' rfl (by decide))
  have e10 : munchIp
      (ip ++ (sp11 ++ ("port".toList ++ (sp12 ++ (port ++ (sp13 ++ tail))))))
      = some (ip, sp11 ++ ("port".toList ++ (sp12 ++ (port ++ (sp13 ++ tail))))) :=
    munchIp_tok _ _ hip.1 hip.2 (head_class _ _ _ hsp11.1 hsp11.2)
      (append_ne_nil_of_left _ _ hsp11.1)
  have e9 : munch1 pyIsSpace
      (sp10 ++ (ip ++ (sp11 ++ ("port".toList ++ (sp12 ++ (port ++ (sp13 ++ tail)))))))
      = some (sp10, ip ++ (sp11 ++ ("port".toList ++ (sp12 ++ (port ++ (sp13 ++ tail)))))) :=
    munch1_tok _ _ _ hsp10.1 hsp10.2 (head_fails _ _ _ _ hip.1 hip.2 digitDot_not_sp)
  have e8 : lit ("from".toList)
      ("from".toList ++ (sp10 ++ (ip ++ (sp11 ++ ("port".toList
        ++ (sp12 ++ (port ++ (sp13 ++ tail))))))))
      = some (sp10 ++ (ip ++ (sp11 ++ ("port".toList
        ++ (sp12 ++ (port ++ (sp13 ++ tail))))))) := lit_self _ _
  have e7 : munch1 pyIsSpace
      (sp9 ++ ("from".toList ++ (sp10 ++ (ip ++ (sp11 ++ ("port".toList
        ++ (sp12 ++ (port ++ (sp13 ++ tail)))))))))
      = some (sp9, "from".toList ++ (sp10 ++ (ip ++ (sp11 ++ ("port".toList
        ++ (sp12 ++ (port ++ (sp13 ++ tail)))))))) :=
    munch1_tok _ _ _ hsp9.1 hsp9.2 (head_fails_of_head _ _ _ 'f' rfl (by decide))
  have e6 : munch1 isNonSpace
      (user ++ (sp9 ++ ("from".toList ++ (sp10 ++ (ip ++ (sp11 ++ ("port".toList
        ++ (sp12 ++ (port ++ (sp13 ++ tail))))))))))
      = some (user, sp9 ++ ("from".toList ++ (sp10 ++ (ip ++ (sp11 ++ ("port".toList
        ++ (sp12 ++ (port ++ (sp13 ++ tail))))))))) :=
    munch1_tok _ _ _ huser.1 huser.2 (head_fails _ _ _ _ hsp9.1 hsp9.2 sp_not_nonSpace)
  have eInv : lit ("invalid user".toList)
      (user ++ (sp9 ++ ("from".toList ++ (sp10 ++ (ip ++ (sp11 ++ ("port".toList
        ++ (sp12 ++ (port ++ (sp13 ++ tail))))))))))
      = none :=
    lit_invalid_user_fail _ _ huser.2 hui (head_class _ _ _ hsp9.1 hsp9.2)
      (append_ne_nil_of_left _ _ hsp9.1)
  have e5 : munch1 pyIsSpace
      (sp8 ++ (user ++ (sp9 ++ ("from".toList ++ (sp10 ++ (ip ++ (sp11 ++ ("port".toList
        ++ (sp12 ++ (port ++ (sp13 ++ tail)))))))))))
      = some (sp8, user ++ (sp9 ++ ("from".toList ++ (sp10 ++ (ip ++ (sp11 ++ ("port".toList
        ++ (sp12 ++ (port ++ (sp13 ++ tail)))))))))) :=
    munch1_tok _ _ _ hsp8.1 hsp8.2 (head_fails _ _ _ _ huser.1 huser.2 nonSpace_not_sp)
  have e4 : lit ("for".toList)
      ("for".toList ++ (sp8 ++ (user ++ (sp9 ++ ("from".toList ++ (sp10 ++ (ip
        ++ (sp11 ++ ("port".toList ++ (sp12 ++ (port ++ (sp13 ++ tail))))))))))))
      = some (sp8 ++ (user ++ (sp9 ++ ("from".toList ++ (sp10 ++ (ip
        ++ (sp11 ++ ("port".toList ++ (sp12 ++ (port ++ (sp13 ++ tail)))))))))))  :=
    lit_self _ _
  have e3 : munch1 pyIsSpace
      (sp7 ++ ("for".toList ++ (sp8 ++ (user ++ (sp9 ++ ("from".toList ++ (sp10 ++ (ip
        ++ (sp11 ++ ("port".toList ++ (sp12 ++ (port ++ (sp13 ++ tail)))))))))))))
      = some (sp7, "for".toList ++ (sp8 ++ (user ++ (sp9 ++ ("from".toList ++ (sp10 ++ (ip
        ++ (sp11 ++ ("port".toList ++ (sp12 ++ (port ++ (sp13 ++ tail))))))))))))  :=
    munch1_tok _ _ _ hsp7.1 hsp7.2 (head_fails_of_head _ _ _ 'f' rfl (by decide))
  have e2 : munchMethod
      (mtok ++ (sp7 ++ ("for".toList ++ (sp8 ++ (user ++ (sp9 ++ ("from".toList
        ++ (sp10 ++ (ip ++ (sp11 ++ ("port".toList ++ (sp12 ++ (port
        ++ (sp13 ++ tail))))))))))))))
      = some (mtok, sp7 ++ ("for".toList ++ (sp8 ++ (user ++ (sp9 ++ ("from".toList
        ++ (sp10 ++ (ip ++ (sp11 ++ ("port".toList ++ (sp12 ++ (port
        ++ (sp13 ++ tail))))))))))))) :=
    munchMethod_tok _ _ hm
  have e1 : munch1 pyIsSpace
      (sp6 ++ (mtok ++ (sp7 ++ ("for".toList ++ (sp8 ++ (user ++ (sp9 ++ ("from".toList
        ++ (sp10 ++ (ip ++ (sp11 ++ ("port".toList ++ (sp12 ++ (port
        ++ (sp13 ++ tail)))))))))))))))
      = some (sp6, mtok ++ (sp7 ++ ("for".toList ++ (sp8 ++ (user ++ (sp9 ++ ("from".toList
        ++ (sp10 ++ (ip ++ (sp11 ++ ("port".toList ++ (sp12 ++ (port
        ++ (sp13 ++ tail)))))))))))))) :=
    munch1_tok _ _ _ hsp6.1 hsp6.2 (head_fails _ _ _ _ hmt.1 hmt.2 nonSpace_not_sp)
  cases inv with
  | false =>
    simp only [List.append_assoc, matchAuthBody, Bool.false_eq_true, if_false,
      e1, e2, e3, e4, e5, e6, e7, e8, e9, e10, e11, e12, e13, e14, e15]
  | true =>
    simp only [List.append_assoc, matchAuthBody, eq_self_iff_true, if_true,
      e1, e2, e3, e4, e5, e6, e7, e8, e9, e10, e11, e12, e13, e14, e15, eInv]

/-- Appending to the left does not change a nonempty list's last
element. -/
theorem getLast_append_right (l r : List Char) (h : r ≠ []) :
    (l ++ r).getLast? = r.getLast? := by
  cases r with
  | nil => exact absurd rfl h
  | cons c t => rw [List.getLast?_append_cons]

/-- C8 (counterexample): the fingerprint captured from the trailing
`ssh2: <ALG> <FP>` group is an arbitrary non-space token — the Accepted
pattern accepts and stores `zzz`, which starts with neither `SHA256:`
nor `MD5:`. -/
theorem C8_fingerprint_any_token_counterexample :
    (parseLineLinux ⟨2024, 1, 15, 0, 0, 0⟩
        "Jan 15 14:23:01 web01 sshd[12345]: Accepted publickey for root from 10.0.1.50 port 52222 ssh2: RSA zzz"
        none none).map (fun e => (e.event_type, e.fingerprint))
      = some ("accepted", some "zzz")
    ∧ List.isPrefixOf ("SHA256:".toList) ("zzz".toList) = false
    ∧ List.isPrefixOf ("MD5:".toList) ("zzz".toList) = false :=
  ⟨by decide, by decide, by decide⟩

set_option maxHeartbeats 1000000 in
/-- C8 (amended): for every line assembled from the Accepted or Failed
shape with a trailing `ssh2: <ALG> <FP>` group -- arbitrary month, day,
time, host, pid, method, username (other than `invalid`), dotted ip,
port, algorithm and fingerprint tokens of the regexes' character
classes, separated by arbitrary whitespace runs -- `parse_line` produces
an `AuthEvent` of the matching type whose `fingerprint` field is
exactly the `<FP>` token; `<FP>` is an arbitrary non-space token and
need not start with `SHA256:` or `MD5:`. -/
theorem C8_ssh2_fingerprint_token :
    ∀ (now : PyDateTime) (reference last : Option PyDateTime)
      (mon day tod host pid mtok user ip port alg fp : List Char)
      (sp1 sp2 sp3 sp4 sp5 sp6 sp7 sp8 sp9 sp10 sp11 sp12 sp13 sp14 sp15 : List Char),
      tokenOf isWordChar mon →
      tokenOf Char.isDigit day →
      tokenOf isDigitColon tod →
      tokenOf isNonSpace host →
      tokenOf Char.isDigit pid →
      (mtok = "publickey".toList ∨ mtok = "password".toList
        ∨ mtok = "keyboard-interactive".toList) →
      tokenOf isNonSpace user →
      user ≠ "invalid".toList →
      tokenOf isDigitDot ip →
      tokenOf Char.isDigit port →
      tokenOf isNonSpace alg →
      tokenOf isNonSpace fp →
      (∀ t ∈ [sp1, sp2, sp3, sp4, sp5, sp6, sp7, sp8, sp9, sp10, sp11, sp12, sp13,
        sp14, sp15], tokenOf pyIsSpace t) →
      ((parseLineLinux now (String.mk (mon ++ (sp1 ++ (day ++ (sp2 ++ (tod ++ (sp3 ++ (host ++ (sp4 ++ ("sshd[".toList ++ (pid ++ ("]:".toList ++ (sp5 ++ ("Accepted".toList ++ (sp6 ++ (mtok ++ (sp7 ++ ("for".toList ++ (sp8 ++ (user ++ (sp9 ++ ("from".toList ++ (sp10 ++ (ip ++ (sp11 ++ ("port".toList ++ (sp12 ++ (port ++ (sp13 ++ ("ssh2:".toList ++ (sp14 ++ (alg ++ (sp15 ++ (fp)))))))))))))))))))))))))))))))))) reference last).map
          (fun e => (e.event_type, e.fingerprint))
        = some ("accepted", some (String.mk fp)))
      ∧ ((parseLineLinux now (String.mk (mon ++ (sp1 ++ (day ++ (sp2 ++ (tod ++ (sp3 ++ (host ++ (sp4 ++ ("sshd[".toList ++ (pid ++ ("]:".toList ++ (sp5 ++ ("Failed".toList ++ (sp6 ++ (mtok ++ (sp7 ++ ("for".toList ++ (sp8 ++ (user ++ (sp9 ++ ("from".toList ++ (sp10 ++ (ip ++ (sp11 ++ ("port".toList ++ (sp12 ++ (port ++ (sp13 ++ ("ssh2:".toList ++ (sp14 ++ (alg ++ (sp15 ++ (fp)))))))))))))))))))))))))))))))))) reference last).map
          (fun e => (e.event_type, e.fingerprint))
        = some ("failed", some (String.mk fp))) := by
  intro now reference last mon day tod host pid mtok user ip port alg fp
    sp1 sp2 sp3 sp4 sp5 sp6 sp7 sp8 sp9 sp10 sp11 sp12 sp13 sp14 sp15
  intro hmon hday htod hhost hpid hm huser hui hip hport halg hfp hsps
  have hsp1 := hsps sp1 (by simp)
  have hsp2 := hsps sp2 (by simp)
  have hsp3 := hsps sp3 (by simp)
  have hsp4 := hsps sp4 (by simp)
  have hsp5 := hsps sp5 (by simp)
  have hsp6 := hsps sp6 (by simp)
  have hsp7 := hsps sp7 (by simp)
  have hsp8 := hsps sp8 (by simp)
  have hsp9 := hsps sp9 (by simp)
  have hsp10 := hsps sp10 (by simp)
  have hsp11 := hsps sp11 (by simp)
  have hsp12 := hsps sp12 (by simp)
  have hsp13 := hsps sp13 (by simp)
  have hsp14 := hsps sp14 (by simp)
  have hsp15 := hsps sp15 (by simp)
  have htail2 := matchSsh2Tail_spec sp14 alg sp15 fp hsp14 halg hsp15 hfp
  simp only [List.append_assoc] at htail2
  have hbodyA := matchAuthBody_spec false
    (mon ++ (sp1 ++ (day ++ (sp2 ++ (tod))))) host pid
    sp6 mtok sp7 sp8 user sp9 sp10 ip sp11 sp12 port sp13
    ("ssh2:".toList ++ (sp14 ++ (alg ++ (sp15 ++ (fp)))))
    hm hsp6 hsp7 hsp8 huser hui hsp9 hsp10 hip hsp11 hsp12 hport hsp13
    (head_fails_of_head _ _ _ 's' rfl (by decide))
  simp only [List.append_assoc] at hbodyA
  rw [htail2] at hbodyA
  have hbodyF := matchAuthBody_spec true
    (mon ++ (sp1 ++ (day ++ (sp2 ++ (tod))))) host pid
    sp6 mtok sp7 sp8 user sp9 sp10 ip sp11 sp12 port sp13
    ("ssh2:".toList ++ (sp14 ++ (alg ++ (sp15 ++ (fp)))))
    hm hsp6 hsp7 hsp8 huser hui hsp9 hsp10 hip hsp11 hsp12 hport hsp13
    (head_fails_of_head _ _ _ 's' rfl (by decide))
  simp only [List.append_assoc] at hbodyF
  rw [htail2] at hbodyF
  have hheadA := matchHead_spec mon sp1 day sp2 tod sp3 host sp4 pid sp5
    ("Accepted".toList ++ (sp6 ++ (mtok ++ (sp7 ++ ("for".toList ++ (sp8 ++ (user ++ (sp9 ++ ("from".toList ++ (sp10 ++ (ip ++ (sp11 ++ ("port".toList ++ (sp12 ++ (port ++ (sp13 ++ ("ssh2:".toList ++ (sp14 ++ (alg ++ (sp15 ++ (fp)))))))))))))))))))))
    hmon hsp1 hday hsp2 htod hsp3 hhost hsp4 hpid hsp5
    (head_fails_of_head _ _ _ 'A' rfl (by decide))
  simp only [List.append_assoc] at hheadA
  have hheadF := matchHead_spec mon sp1 day sp2 tod sp3 host sp4 pid sp5
    ("Failed".toList ++ (sp6 ++ (mtok ++ (sp7 ++ ("for".toList ++ (sp8 ++ (user ++ (sp9 ++ ("from".toList ++ (sp10 ++ (ip ++ (sp11 ++ ("port".toList ++ (sp12 ++ (port ++ (sp13 ++ ("ssh2:".toList ++ (sp14 ++ (alg ++ (sp15 ++ (fp)))))))))))))))))))))
    hmon hsp1 hday hsp2 htod hsp3 hhost hsp4 hpid hsp5
    (head_fails_of_head _ _ _ 'F' rfl (by decide))
  simp only [List.append_assoc] at hheadF
  have hlitA : lit ("Accepted".toList) ("Accepted".toList ++ (sp6 ++ (mtok ++ (sp7 ++ ("for".toList ++ (sp8 ++ (user ++ (sp9 ++ ("from".toList ++ (sp10 ++ (ip ++ (sp11 ++ ("port".toList ++ (sp12 ++ (port ++ (sp13 ++ ("ssh2:".toList ++ (sp14 ++ (alg ++ (sp15 ++ (fp)))))))))))))))))))))
      = some (sp6 ++ (mtok ++ (sp7 ++ ("for".toList ++ (sp8 ++ (user ++ (sp9 ++ ("from".toList ++ (sp10 ++ (ip ++ (sp11 ++ ("port".toList ++ (sp12 ++ (port ++ (sp13 ++ ("ssh2:".toList ++ (sp14 ++ (alg ++ (sp15 ++ (fp)))))))))))))))))))) := lit_self _ _
  have hlitF : lit ("Failed".toList) ("Failed".toList ++ (sp6 ++ (mtok ++ (sp7 ++ ("for".toList ++ (sp8 ++ (user ++ (sp9 ++ ("from".toList ++ (sp10 ++ (ip ++ (sp11 ++ ("port".toList ++ (sp12 ++ (port ++ (sp13 ++ ("ssh2:".toList ++ (sp14 ++ (alg ++ (sp15 ++ (fp)))))))))))))))))))))
      = some (sp6 ++ (mtok ++ (sp7 ++ ("for".toList ++ (sp8 ++ (user ++ (sp9 ++ ("from".toList ++ (sp10 ++ (ip ++ (sp11 ++ ("port".toList ++ (sp12 ++ (port ++ (sp13 ++ ("ssh2:".toList ++ (sp14 ++ (alg ++ (sp15 ++ (fp)))))))))))))))))))) := lit_self _ _
  have hlitAF : ∀ (x : List Char), lit ("Accepted".toList) ("Failed".toList ++ x) = none :=
    fun x => rfl
  have hAccA : matchAccepted (mon ++ (sp1 ++ (day ++ (sp2 ++ (tod ++ (sp3 ++ (host ++ (sp4 ++ ("sshd[".toList ++ (pid ++ ("]:".toList ++ (sp5 ++ ("Accepted".toList ++ (sp6 ++ (mtok ++ (sp7 ++ ("for".toList ++ (sp8 ++ (user ++ (sp9 ++ ("from".toList ++ (sp10 ++ (ip ++ (sp11 ++ ("port".toList ++ (sp12 ++ (port ++ (sp13 ++ ("ssh2:".toList ++ (sp14 ++ (alg ++ (sp15 ++ (fp)))))))))))))))))))))))))))))))))
      = some { timestamp := mon ++ (sp1 ++ (day ++ (sp2 ++ (tod)))), hostname := host, pid := pid, method := some mtok,
               username := some user, ip := ip, port := some port,
               fingerprint := some fp } := by
    simp only [matchAccepted, hheadA, hlitA, hbodyA]
  have hAccF : matchAccepted (mon ++ (sp1 ++ (day ++ (sp2 ++ (tod ++ (sp3 ++ (host ++ (sp4 ++ ("sshd[".toList ++ (pid ++ ("]:".toList ++ (sp5 ++ ("Failed".toList ++ (sp6 ++ (mtok ++ (sp7 ++ ("for".toList ++ (sp8 ++ (user ++ (sp9 ++ ("from".toList ++ (sp10 ++ (ip ++ (sp11 ++ ("port".toList ++ (sp12 ++ (port ++ (sp13 ++ ("ssh2:".toList ++ (sp14 ++ (alg ++ (sp15 ++ (fp))))))))))))))))))))))))))))))))) = none := by
    simp only [matchAccepted, hheadF, hlitAF]
  have hFailF : matchFailed (mon ++ (sp1 ++ (day ++ (sp2 ++ (tod ++ (sp3 ++ (host ++ (sp4 ++ ("sshd[".toList ++ (pid ++ ("]:".toList ++ (sp5 ++ ("Failed".toList ++ (sp6 ++ (mtok ++ (sp7 ++ ("for".toList ++ (sp8 ++ (user ++ (sp9 ++ ("from".toList ++ (sp10 ++ (ip ++ (sp11 ++ ("port".toList ++ (sp12 ++ (port ++ (sp13 ++ ("ssh2:".toList ++ (sp14 ++ (alg ++ (sp15 ++ (fp)))))))))))))))))))))))))))))))))
      = some { timestamp := mon ++ (sp1 ++ (day ++ (sp2 ++ (tod)))), hostname := host, pid := pid, method := some mtok,
               username := some user, ip := ip, port := some port,
               fingerprint := some fp } := by
    simp only [matchFailed, hheadF, hlitF, hbodyF]
  have hfpget : ∀ (L : List Char), L.getLast? = fp.getLast? →
      ∀ c, L.reverse.head? = some c → pyIsSpace c = false :=
    fun L hL => rev_head_not_sp L fp hfp hL
  refine ⟨?_, ?_⟩
  · have hgetA : (mon ++ (sp1 ++ (day ++ (sp2 ++ (tod ++ (sp3 ++ (host ++ (sp4 ++ ("sshd[".toList ++ (pid ++ ("]:".toList ++ (sp5 ++ ("Accepted".toList ++ (sp6 ++ (mtok ++ (sp7 ++ ("for".toList ++ (sp8 ++ (user ++ (sp9 ++ ("from".toList ++ (sp10 ++ (ip ++ (sp11 ++ ("port".toList ++ (sp12 ++ (port ++ (sp13 ++ ("ssh2:".toList ++ (sp14 ++ (alg ++ (sp15 ++ (fp))))))))))))))))))))))))))))))))).getLast? = fp.getLast? := by
      simp only [← List.append_assoc]
      exact getLast_append_right _ _ hfp.1
    have hstripA := pyStrip_mk (mon ++ (sp1 ++ (day ++ (sp2 ++ (tod ++ (sp3 ++ (host ++ (sp4 ++ ("sshd[".toList ++ (pid ++ ("]:".toList ++ (sp5 ++ ("Accepted".toList ++ (sp6 ++ (mtok ++ (sp7 ++ ("for".toList ++ (sp8 ++ (user ++ (sp9 ++ ("from".toList ++ (sp10 ++ (ip ++ (sp11 ++ ("port".toList ++ (sp12 ++ (port ++ (sp13 ++ ("ssh2:".toList ++ (sp14 ++ (alg ++ (sp15 ++ (fp)))))))))))))))))))))))))))))))))
      (head_fails _ _ _ _ hmon.1 hmon.2 word_not_sp) (hfpget _ hgetA)
    have hneA : String.mk (mon ++ (sp1 ++ (day ++ (sp2 ++ (tod ++ (sp3 ++ (host ++ (sp4 ++ ("sshd[".toList ++ (pid ++ ("]:".toList ++ (sp5 ++ ("Accepted".toList ++ (sp6 ++ (mtok ++ (sp7 ++ ("for".toList ++ (sp8 ++ (user ++ (sp9 ++ ("from".toList ++ (sp10 ++ (ip ++ (sp11 ++ ("port".toList ++ (sp12 ++ (port ++ (sp13 ++ ("ssh2:".toList ++ (sp14 ++ (alg ++ (sp15 ++ (fp))))))))))))))))))))))))))))))))) ≠ "" := by
      intro h
      exact append_ne_nil_of_left _ _ hmon.1 (congrArg String.data h)
    have hsubA : isSubstring ("sshd[".toList) (mon ++ (sp1 ++ (day ++ (sp2 ++ (tod ++ (sp3 ++ (host ++ (sp4 ++ ("sshd[".toList ++ (pid ++ ("]:".toList ++ (sp5 ++ ("Accepted".toList ++ (sp6 ++ (mtok ++ (sp7 ++ ("for".toList ++ (sp8 ++ (user ++ (sp9 ++ ("from".toList ++ (sp10 ++ (ip ++ (sp11 ++ ("port".toList ++ (sp12 ++ (port ++ (sp13 ++ ("ssh2:".toList ++ (sp14 ++ (alg ++ (sp15 ++ (fp))))))))))))))))))))))))))))))))) = true := by
      rw [show (mon ++ (sp1 ++ (day ++ (sp2 ++ (tod ++ (sp3 ++ (host ++ (sp4 ++ ("sshd[".toList ++ (pid ++ ("]:".toList ++ (sp5 ++ ("Accepted".toList ++ (sp6 ++ (mtok ++ (sp7 ++ ("for".toList ++ (sp8 ++ (user ++ (sp9 ++ ("from".toList ++ (sp10 ++ (ip ++ (sp11 ++ ("port".toList ++ (sp12 ++ (port ++ (sp13 ++ ("ssh2:".toList ++ (sp14 ++ (alg ++ (sp15 ++ (fp)))))))))))))))))))))))))))))))) : List Char)
          = (mon ++ (sp1 ++ (day ++ (sp2 ++ (tod ++ (sp3 ++ (host ++ (sp4)))))))) ++ ("sshd[".toList ++ (pid ++ ("]:".toList ++ (sp5 ++ ("Accepted".toList ++ (sp6 ++ (mtok ++ (sp7 ++ ("for".toList ++ (sp8 ++ (user ++ (sp9 ++ ("from".toList ++ (sp10 ++ (ip ++ (sp11 ++ ("port".toList ++ (sp12 ++ (port ++ (sp13 ++ ("ssh2:".toList ++ (sp14 ++ (alg ++ (sp15 ++ (fp))))))))))))))))))))))))) from by
        simp only [List.append_assoc]]
      exact isSubstring_of_append _ _ _
    have hguardA : (decide (String.mk (mon ++ (sp1 ++ (day ++ (sp2 ++ (tod ++ (sp3 ++ (host ++ (sp4 ++ ("sshd[".toList ++ (pid ++ ("]:".toList ++ (sp5 ++ ("Accepted".toList ++ (sp6 ++ (mtok ++ (sp7 ++ ("for".toList ++ (sp8 ++ (user ++ (sp9 ++ ("from".toList ++ (sp10 ++ (ip ++ (sp11 ++ ("port".toList ++ (sp12 ++ (port ++ (sp13 ++ ("ssh2:".toList ++ (sp14 ++ (alg ++ (sp15 ++ (fp))))))))))))))))))))))))))))))))) = "")
        || !(isSubstring ("sshd[".toList) (mon ++ (sp1 ++ (day ++ (sp2 ++ (tod ++ (sp3 ++ (host ++ (sp4 ++ ("sshd[".toList ++ (pid ++ ("]:".toList ++ (sp5 ++ ("Accepted".toList ++ (sp6 ++ (mtok ++ (sp7 ++ ("for".toList ++ (sp8 ++ (user ++ (sp9 ++ ("from".toList ++ (sp10 ++ (ip ++ (sp11 ++ ("port".toList ++ (sp12 ++ (port ++ (sp13 ++ ("ssh2:".toList ++ (sp14 ++ (alg ++ (sp15 ++ (fp))))))))))))))))))))))))))))))))))) = false := by
      rw [hsubA, decide_eq_false hneA]
      rfl
    simp only [parseLineLinux, hstripA,
      show (String.mk (mon ++ (sp1 ++ (day ++ (sp2 ++ (tod ++ (sp3 ++ (host ++ (sp4 ++ ("sshd[".toList ++ (pid ++ ("]:".toList ++ (sp5 ++ ("Accepted".toList ++ (sp6 ++ (mtok ++ (sp7 ++ ("for".toList ++ (sp8 ++ (user ++ (sp9 ++ ("from".toList ++ (sp10 ++ (ip ++ (sp11 ++ ("port".toList ++ (sp12 ++ (port ++ (sp13 ++ ("ssh2:".toList ++ (sp14 ++ (alg ++ (sp15 ++ (fp)))))))))))))))))))))))))))))))))).toList = mon ++ (sp1 ++ (day ++ (sp2 ++ (tod ++ (sp3 ++ (host ++ (sp4 ++ ("sshd[".toList ++ (pid ++ ("]:".toList ++ (sp5 ++ ("Accepted".toList ++ (sp6 ++ (mtok ++ (sp7 ++ ("for".toList ++ (sp8 ++ (user ++ (sp9 ++ ("from".toList ++ (sp10 ++ (ip ++ (sp11 ++ ("port".toList ++ (sp12 ++ (port ++ (sp13 ++ ("ssh2:".toList ++ (sp14 ++ (alg ++ (sp15 ++ (fp)))))))))))))))))))))))))))))))) from rfl, hguardA,
      Bool.false_eq_true, if_false, hAccA]
    rfl
  · have hgetF : (mon ++ (sp1 ++ (day ++ (sp2 ++ (tod ++ (sp3 ++ (host ++ (sp4 ++ ("sshd[".toList ++ (pid ++ ("]:".toList ++ (sp5 ++ ("Failed".toList ++ (sp6 ++ (mtok ++ (sp7 ++ ("for".toList ++ (sp8 ++ (user ++ (sp9 ++ ("from".toList ++ (sp10 ++ (ip ++ (sp11 ++ ("port".toList ++ (sp12 ++ (port ++ (sp13 ++ ("ssh2:".toList ++ (sp14 ++ (alg ++ (sp15 ++ (fp))))))))))))))))))))))))))))))))).getLast? = fp.getLast? := by
      simp only [← List.append_assoc]
      exact getLast_append_right _ _ hfp.1
    have hstripF := pyStrip_mk (mon ++ (sp1 ++ (day ++ (sp2 ++ (tod ++ (sp3 ++ (host ++ (sp4 ++ ("sshd[".toList ++ (pid ++ ("]:".toList ++ (sp5 ++ ("Failed".toList ++ (sp6 ++ (mtok ++ (sp7 ++ ("for".toList ++ (sp8 ++ (user ++ (sp9 ++ ("from".toList ++ (sp10 ++ (ip ++ (sp11 ++ ("port".toList ++ (sp12 ++ (port ++ (sp13 ++ ("ssh2:".toList ++ (sp14 ++ (alg ++ (sp15 ++ (fp)))))))))))))))))))))))))))))))))
      (head_fails _ _ _ _ hmon.1 hmon.2 word_not_sp) (hfpget _ hgetF)
    have hneF : String.mk (mon ++ (sp1 ++ (day ++ (sp2 ++ (tod ++ (sp3 ++ (host ++ (sp4 ++ ("sshd[".toList ++ (pid ++ ("]:".toList ++ (sp5 ++ ("Failed".toList ++ (sp6 ++ (mtok ++ (sp7 ++ ("for".toList ++ (sp8 ++ (user ++ (sp9 ++ ("from".toList ++ (sp10 ++ (ip ++ (sp11 ++ ("port".toList ++ (sp12 ++ (port ++ (sp13 ++ ("ssh2:".toList ++ (sp14 ++ (alg ++ (sp15 ++ (fp))))))))))))))))))))))))))))))))) ≠ "" := by
      intro h
      exact append_ne_nil_of_left _ _ hmon.1 (congrArg String.data h)
    have hsubF : isSubstring ("sshd[".toList) (mon ++ (sp1 ++ (day ++ (sp2 ++ (tod ++ (sp3 ++ (host ++ (sp4 ++ ("sshd[".toList ++ (pid ++ ("]:".toList ++ (sp5 ++ ("Failed".toList ++ (sp6 ++ (mtok ++ (sp7 ++ ("for".toList ++ (sp8 ++ (user ++ (sp9 ++ ("from".toList ++ (sp10 ++ (ip ++ (sp11 ++ ("port".toList ++ (sp12 ++ (port ++ (sp13 ++ ("ssh2:".toList ++ (sp14 ++ (alg ++ (sp15 ++ (fp))))))))))))))))))))))))))))))))) = true := by
      rw [show (mon ++ (sp1 ++ (day ++ (sp2 ++ (tod ++ (sp3 ++ (host ++ (sp4 ++ ("sshd[".toList ++ (pid ++ ("]:".toList ++ (sp5 ++ ("Failed".toList ++ (sp6 ++ (mtok ++ (sp7 ++ ("for".toList ++ (sp8 ++ (user ++ (sp9 ++ ("from".toList ++ (sp10 ++ (ip ++ (sp11 ++ ("port".toList ++ (sp12 ++ (port ++ (sp13 ++ ("ssh2:".toList ++ (sp14 ++ (alg ++ (sp15 ++ (fp)))))))))))))))))))))))))))))))) : List Char)
          = (mon ++ (sp1 ++ (day ++ (sp2 ++ (tod ++ (sp3 ++ (host ++ (sp4)))))))) ++ ("sshd[".toList ++ (pid ++ ("]:".toList ++ (sp5 ++ ("Failed".toList ++ (sp6 ++ (mtok ++ (sp7 ++ ("for".toList ++ (sp8 ++ (user ++ (sp9 ++ ("from".toList ++ (sp10 ++ (ip ++ (sp11 ++ ("port".toList ++ (sp12 ++ (port ++ (sp13 ++ ("ssh2:".toList ++ (sp14 ++ (alg ++ (sp15 ++ (fp))))))))))))))))))))))))) from by
        simp only [List.append_assoc]]
      exact isSubstring_of_append _ _ _
    have hguardF : (decide (String.mk (mon ++ (sp1 ++ (day ++ (sp2 ++ (tod ++ (sp3 ++ (host ++ (sp4 ++ ("sshd[".toList ++ (pid ++ ("]:".toList ++ (sp5 ++ ("Failed".toList ++ (sp6 ++ (mtok ++ (sp7 ++ ("for".toList ++ (sp8 ++ (user ++ (sp9 ++ ("from".toList ++ (sp10 ++ (ip ++ (sp11 ++ ("port".toList ++ (sp12 ++ (port ++ (sp13 ++ ("ssh2:".toList ++ (sp14 ++ (alg ++ (sp15 ++ (fp))))))))))))))))))))))))))))))))) = "")
        || !(isSubstring ("sshd[".toList) (mon ++ (sp1 ++ (day ++ (sp2 ++ (tod ++ (sp3 ++ (host ++ (sp4 ++ ("sshd[".toList ++ (pid ++ ("]:".toList ++ (sp5 ++ ("Failed".toList ++ (sp6 ++ (mtok ++ (sp7 ++ ("for".toList ++ (sp8 ++ (user ++ (sp9 ++ ("from".toList ++ (sp10 ++ (ip ++ (sp11 ++ ("port".toList ++ (sp12 ++ (port ++ (sp13 ++ ("ssh2:".toList ++ (sp14 ++ (alg ++ (sp15 ++ (fp))))))))))))))))))))))))))))))))))) = false := by
      rw [hsubF, decide_eq_false hneF]
      rfl
    simp only [parseLineLinux, hstripF,
      show (String.mk (mon ++ (sp1 ++ (day ++ (sp2 ++ (tod ++ (sp3 ++ (host ++ (sp4 ++ ("sshd[".toList ++ (pid ++ ("]:".toList ++ (sp5 ++ ("Failed".toList ++ (sp6 ++ (mtok ++ (sp7 ++ ("for".toList ++ (sp8 ++ (user ++ (sp9 ++ ("from".toList ++ (sp10 ++ (ip ++ (sp11 ++ ("port".toList ++ (sp12 ++ (port ++ (sp13 ++ ("ssh2:".toList ++ (sp14 ++ (alg ++ (sp15 ++ (fp)))))))))))))))))))))))))))))))))).toList = mon ++ (sp1 ++ (day ++ (sp2 ++ (tod ++ (sp3 ++ (host ++ (sp4 ++ ("sshd[".toList ++ (pid ++ ("]:".toList ++ (sp5 ++ ("Failed".toList ++ (sp6 ++ (mtok ++ (sp7 ++ ("for".toList ++ (sp8 ++ (user ++ (sp9 ++ ("from".toList ++ (sp10 ++ (ip ++ (sp11 ++ ("port".toList ++ (sp12 ++ (port ++ (sp13 ++ ("ssh2:".toList ++ (sp14 ++ (alg ++ (sp15 ++ (fp)))))))))))))))))))))))))))))))) from rfl, hguardF,
      Bool.false_eq_true, if_false, hAccF, hFailF]
    rfl

set_option maxHeartbeats 1000000 in
/-- C8 (witness): the amended theorem instantiated on a concrete
Accepted/Failed line pair whose fingerprint token is `zzz`, every
hypothesis discharged by evaluation. -/
theorem C8_ssh2_fingerprint_token_witness :
    tokenOf isWordChar ("Jan".toList)
    ∧ tokenOf Char.isDigit ("15".toList)
    ∧ tokenOf isDigitColon ("14:23:01".toList)
    ∧ tokenOf isNonSpace ("web01".toList)
    ∧ tokenOf Char.isDigit ("12345".toList)
    ∧ ("publickey".toList = "publickey".toList ∨ "publickey".toList = "password".toList
        ∨ "publickey".toList = "keyboard-interactive".toList)
    ∧ tokenOf isNonSpace ("alice".toList)
    ∧ ("alice".toList) ≠ "invalid".toList
    ∧ tokenOf isDigitDot ("10.0.1.50".toList)
    ∧ tokenOf Char.isDigit ("52222".toList)
    ∧ tokenOf isNonSpace ("RSA".toList)
    ∧ tokenOf isNonSpace ("zzz".toList)
    ∧ (∀ t ∈ [" ".toList, " ".toList, " ".toList, " ".toList, " ".toList, " ".toList, " ".toList, " ".toList, " ".toList, " ".toList, " ".toList, " ".toList, " ".toList, " ".toList, " ".toList], tokenOf pyIsSpace t)
    ∧ (((parseLineLinux ⟨2024, 1, 15, 0, 0, 0⟩ (String.mk ("Jan".toList ++ (" ".toList ++ ("15".toList ++ (" ".toList ++ ("14:23:01".toList ++ (" ".toList ++ ("web01".toList ++ (" ".toList ++ ("sshd[".toList ++ ("12345".toList ++ ("]:".toList ++ (" ".toList ++ ("Accepted".toList ++ (" ".toList ++ ("publickey".toList ++ (" ".toList ++ ("for".toList ++ (" ".toList ++ ("alice".toList ++ (" ".toList ++ ("from".toList ++ (" ".toList ++ ("10.0.1.50".toList ++ (" ".toList ++ ("port".toList ++ (" ".toList ++ ("52222".toList ++ (" ".toList ++ ("ssh2:".toList ++ (" ".toList ++ ("RSA".toList ++ (" ".toList ++ ("zzz".toList)))))))))))))))))))))))))))))))))) none none).map
          (fun e => (e.event_type, e.fingerprint))
        = some ("accepted", some (String.mk ("zzz".toList))))
      ∧ ((parseLineLinux ⟨2024, 1, 15, 0, 0, 0⟩ (String.mk ("Jan".toList ++ (" ".toList ++ ("15".toList ++ (" ".toList ++ ("14:23:01".toList ++ (" ".toList ++ ("web01".toList ++ (" ".toList ++ ("sshd[".toList ++ ("12345".toList ++ ("]:".toList ++ (" ".toList ++ ("Failed".toList ++ (" ".toList ++ ("publickey".toList ++ (" ".toList ++ ("for".toList ++ (" ".toList ++ ("alice".toList ++ (" ".toList ++ ("from".toList ++ (" ".toList ++ ("10.0.1.50".toList ++ (" ".toList ++ ("port".toList ++ (" ".toList ++ ("52222".toList ++ (" ".toList ++ ("ssh2:".toList ++ (" ".toList ++ ("RSA".toList ++ (" ".toList ++ ("zzz".toList)))))))))))))))))))))))))))))))))) none none).map
          (fun e => (e.event_type, e.fingerprint))
        = some ("failed", some (String.mk ("zzz".toList))))) :=
  ⟨by decide, by decide, by decide, by decide, by decide, by decide, by decide, by decide, by decide, by decide, by decide, by decide, by decide,
    C8_ssh2_fingerprint_token ⟨2024, 1, 15, 0, 0, 0⟩ none none ("Jan".toList) ("15".toList) ("14:23:01".toList) ("web01".toList) ("12345".toList) ("publickey".toList) ("alice".toList) ("10.0.1.50".toList) ("52222".toList) ("RSA".toList) ("zzz".toList)
      (" ".toList) (" ".toList) (" ".toList) (" ".toList) (" ".toList) (" ".toList) (" ".toList) (" ".toList) (" ".toList) (" ".toList) (" ".toList) (" ".toList) (" ".toList) (" ".toList) (" ".toList)
      (by decide) (by decide) (by decide) (by decide) (by decide) (by decide) (by decide) (by decide) (by decide) (by decide) (by decide) (by decide) (by decide)⟩

end Keyspider
